import Mathlib

/-!
# proxy-playground: tunnel statistics and merged lifecycles

A shallow embedding of `pkg/proxy` (`context.go`, `manager.go`, `proxy.go`).

Conventions of the embedding:

* `time.Time` of the Go standard library is kept as its wall-clock reading: seconds since
  January 1, year 1 (what `Time.sec()` returns) and nanoseconds within the second.  The
  monotonic reading and the location pointer, which `UnixNano` does not read, are left out.
  `UnixNano` is computed in `int64`, so it wraps (`wrap64`): the zero `time.Time` lies outside
  the range an `int64` nanosecond count can hold and its `UnixNano()` is `-6795364578871345152`.
* The `int64` counters of `Stats` and `tunnelStats` are integers (`Int`).  A counter would need
  `2^63` bytes or sessions to wrap, so their arithmetic is not reduced modulo `2^64`.  Where
  the order of a counter's values is at stake, `addBytesInt64` keeps the wrap-around of
  `atomic.AddInt64`; it is `addBytes` as long as the sums are `int64` values.
* `float64` values of the aggregate record are rationals: float rounding is not modelled.
* A method with a pointer receiver is a function from the state before the call to the state
  after it.  `tunnelStats.proxyStats` points at the shared `Stats`; a `tunnelStats` method
  therefore takes and returns the pair of the tunnel's own fields and that `Stats`.
* The goroutine `c.run()` and the done events of the two parents are the steps of a transition
  system (`step`).  The `select`, the section under the mutex and `close(c.done)` are separate
  steps, so the states between them are states that other goroutines can observe.
-/

namespace Proxy

/-! ## `time` (Go standard library) -/

/-- Two's-complement reduction of an integer to the `int64` range. -/
def wrap64 (x : Int) : Int := (x + 2 ^ 63) % 2 ^ 64 - 2 ^ 63

namespace time

/-- Wall-clock reading of a Go `time.Time`: `sec` is `Time.sec()`, the number of seconds
since January 1, year 1 00:00:00 UTC; `nsec` is `Time.nsec()`, in `[0, 999999999]`. -/
structure Time where
  sec : Int
  nsec : Int
deriving DecidableEq, Repr

/-- The zero value `time.Time{}`: January 1, year 1, 00:00:00 UTC. -/
def Time.zero : Time := { sec := 0, nsec := 0 }

/-- A `Time` as Go can hold it: an `int64` second count and a nanosecond field in range. -/
def Time.wellFormed (t : Time) : Prop :=
  -2 ^ 63 ≤ t.sec ∧ t.sec < 2 ^ 63 ∧ 0 ≤ t.nsec ∧ t.nsec < 1000000000

instance (t : Time) : Decidable t.wellFormed :=
  inferInstanceAs (Decidable (-2 ^ 63 ≤ t.sec ∧ t.sec < 2 ^ 63 ∧ 0 ≤ t.nsec ∧ t.nsec < 1000000000))

/-- Constant `unixToInternal` of `time.go`: seconds from year 1 to 1970. -/
def unixToInternal : Int := (1969 * 365 + 1969 / 4 - 1969 / 100 + 1969 / 400) * 86400

/-- Constant `internalToUnix` of `time.go`. -/
def internalToUnix : Int := -unixToInternal

/-- Method `Time.unixSec`: `t.sec() + internalToUnix`. -/
def Time.unixSec (t : Time) : Int := wrap64 (t.sec + internalToUnix)

/-- Method `Time.UnixNano`: `t.unixSec()*1e9 + int64(t.nsec())`, in `int64`. -/
def Time.UnixNano (t : Time) : Int := wrap64 (t.unixSec * 1000000000 + t.nsec)

/-- A `Time` built from a Unix second count and a nanosecond offset (`time.Unix`). -/
def Unix (sec nsec : Int) : Time := { sec := sec + unixToInternal, nsec := nsec }

/-- Chronological order of two instants (`Time.Before`). -/
def Time.Before (t u : Time) : Prop := t.sec < u.sec ∨ (t.sec = u.sec ∧ t.nsec < u.nsec)

instance (t u : Time) : Decidable (t.Before u) :=
  inferInstanceAs (Decidable (t.sec < u.sec ∨ (t.sec = u.sec ∧ t.nsec < u.nsec)))

/-- The instants that `UnixNano` represents exactly: well-formed, with a count of nanoseconds
since 1970 that fits an `int64` (1677-09-21T00:12:43.145224192Z to
2262-04-11T23:47:16.854775807Z). -/
def Time.inNanoRange (t : Time) : Prop :=
  -2 ^ 63 ≤ (t.sec - unixToInternal) * 1000000000 + t.nsec ∧
  (t.sec - unixToInternal) * 1000000000 + t.nsec < 2 ^ 63 ∧
  0 ≤ t.nsec ∧ t.nsec < 1000000000

instance (t : Time) : Decidable t.inNanoRange :=
  inferInstanceAs (Decidable (-2 ^ 63 ≤ (t.sec - unixToInternal) * 1000000000 + t.nsec ∧
    (t.sec - unixToInternal) * 1000000000 + t.nsec < 2 ^ 63 ∧
    0 ≤ t.nsec ∧ t.nsec < 1000000000))

/-- Constants `minDuration` and `maxDuration` of `time.go`. -/
def minDuration : Int := -2 ^ 63

/-- Largest `time.Duration`. -/
def maxDuration : Int := 2 ^ 63 - 1

/-- Method `Time.Sub` on wall-clock readings: the difference `t - u` in nanoseconds,
saturated to `minDuration` or `maxDuration` when it does not fit a `Duration`. -/
def Time.Sub (t u : Time) : Int :=
  let d := (t.sec - u.sec) * 1000000000 + (t.nsec - u.nsec)
  if minDuration ≤ d ∧ d ≤ maxDuration then d
  else if t.Before u then minDuration
  else maxDuration

/-- Method `Duration.Milliseconds`: `int64(d) / 1e6`, truncated toward zero. -/
def Milliseconds (d : Int) : Int := Int.tdiv d 1000000

end time

/-! ## `context.go` -/

/-- What `mContext` reads of a parent `context.Context`: the pair that its `Deadline()`
returns, whether its `Done()` channel is closed, and the value of its `Err()`. -/
structure Context where
  deadline : time.Time
  ok : Bool
  isDone : Bool
  err : Option String
deriving DecidableEq, Repr

/-- Method `Deadline` of a parent context. -/
def Context.Deadline (c : Context) : time.Time × Bool := (c.deadline, c.ok)

/-- A parent without a deadline that is still live, such as `context.Background()`:
its `Deadline()` is `(time.Time{}, false)`. -/
def Background : Context :=
  { deadline := time.Time.zero, ok := false, isDone := false, err := none }

/-- A live parent with deadline `d`, as `context.WithDeadline(context.Background(), d)`
while `d` has not passed; `Deadline()` is `(d, true)`. -/
def WithDeadline (d : time.Time) : Context :=
  { deadline := d, ok := true, isDone := false, err := none }

/-- The parent `context.WithDeadline(context.Background(), d)` for a `d` that has passed:
it is done with `context.DeadlineExceeded`, and `Deadline()` is still `(d, true)`. -/
def WithDeadlineExpired (d : time.Time) : Context :=
  { deadline := d, ok := true, isDone := true, err := some "context deadline exceeded" }

/-- A parent made by `context.WithCancel(context.Background())` whose cancel function has not
been called: live, without deadline. -/
def WithCancel : Context :=
  { deadline := time.Time.zero, ok := false, isDone := false, err := none }

/-- The struct `mContext` (the mutex is left out): the two parents, whether `done` has been
closed, and the terminal error (`none` is `nil`). -/
structure mContext where
  mainCtx : Context
  ctx : Context
  done : Bool
  err : Option String
deriving DecidableEq, Repr

/-- Function `mergeContexts(mainCtx, ctx)`: the merged lifecycle as it is returned, before
its watcher has taken a step. -/
def mergeContexts (mainCtx ctx : Context) : mContext :=
  { mainCtx := mainCtx, ctx := ctx, done := false, err := none }

/-- Method `mContext.Deadline`. -/
def mContext.Deadline (c : mContext) : time.Time × Bool :=
  let d : time.Time := time.Time.zero
  let (d1, ok1) := c.ctx.Deadline
  let (d2, ok2) := c.mainCtx.Deadline
  let d :=
    if ok1 && decide (d1.UnixNano < d2.UnixNano) then d1
    else if ok2 then d2
    else d
  (d, ok1 || ok2)

/-! ## `manager.go` -/

/-- The struct `Stats`: the embedded `time.Time` (epoch start time), the gauge of open proxy
connections and the seven counters of the epoch. -/
structure Stats where
  Time : time.Time
  sessionsProxying : Int
  newBytesUp : Int
  newBytesDown : Int
  completeBytesUp : Int
  completeBytesDown : Int
  zeroByteTunnelsUp : Int
  zeroByteTunnelsDown : Int
  completedSessions : Int
deriving DecidableEq, Repr

/-- The ten arguments that `printStats` passes to `logger.Printf`, in the order of the format
string `"proxy-stats:%d %d %f %d %f %d %d %d %f %f"`. -/
structure StatsRecord where
  sessionsProxying : Int
  newBytesUp : Int
  rateUp : ℚ
  newBytesDown : Int
  rateDown : ℚ
  completedSessions : Int
  zeroByteTunnelsUp : Int
  zeroByteTunnelsDown : Int
  avgNonZeroUp : ℚ
  avgNonZeroDown : ℚ
deriving DecidableEq

/-- The `*log.Logger` that `printStats` writes to: the records printed so far, oldest first. -/
abbrev Logger := List StatsRecord

/-- The zero value `Stats{}` that `initStats` stores in the singleton. -/
def Stats.zero : Stats :=
  { Time := time.Time.zero, sessionsProxying := 0, newBytesUp := 0, newBytesDown := 0,
    completeBytesUp := 0, completeBytesDown := 0, zeroByteTunnelsUp := 0,
    zeroByteTunnelsDown := 0, completedSessions := 0 }

/-- The local `epochDur` of `printStats`:
`math.Max(float64(time.Since(s.Time).Milliseconds()), 1)`, with `now` the clock reading
that `time.Since` takes. -/
def Stats.epochDur (s : Stats) (now : time.Time) : ℚ :=
  max ((time.Milliseconds (now.Sub s.Time) : Int) : ℚ) 1

/-- The record that `printStats` hands to `logger.Printf`. -/
def Stats.record (s : Stats) (now : time.Time) : StatsRecord :=
  let epochDur : ℚ := s.epochDur now
  let completedSessions := s.completedSessions
  let zbtu := s.zeroByteTunnelsUp
  let zbtd := s.zeroByteTunnelsDown
  { sessionsProxying := s.sessionsProxying,
    newBytesUp := s.newBytesUp,
    rateUp := (s.newBytesUp : ℚ) / epochDur * 1000,
    newBytesDown := s.newBytesDown,
    rateDown := (s.newBytesDown : ℚ) / epochDur * 1000,
    completedSessions := completedSessions,
    zeroByteTunnelsUp := zbtu,
    zeroByteTunnelsDown := zbtd,
    avgNonZeroUp := (s.completeBytesUp : ℚ) / max (((completedSessions - zbtu : Int)) : ℚ) 1,
    avgNonZeroDown := (s.completeBytesDown : ℚ) / max (((completedSessions - zbtd : Int)) : ℚ) 1 }

/-- Method `Stats.printStats`: one record is appended to the logger; `s` is only read. -/
def Stats.printStats (s : Stats) (now : time.Time) (logger : Logger) : Logger :=
  logger ++ [s.record now]

/-- Method `Stats.reset`: seven stores of `0`. -/
def Stats.reset (s : Stats) : Stats :=
  let s := { s with newBytesUp := 0 }
  let s := { s with newBytesDown := 0 }
  let s := { s with completeBytesUp := 0 }
  let s := { s with completeBytesDown := 0 }
  let s := { s with zeroByteTunnelsUp := 0 }
  let s := { s with zeroByteTunnelsDown := 0 }
  { s with completedSessions := 0 }

/-- Method `Stats.Reset`. -/
def Stats.Reset (s : Stats) : Stats := s.reset

/-- Method `Stats.PrintAndReset`: `s.printStats(logger)` and then `s.reset()`. -/
def Stats.PrintAndReset (s : Stats) (now : time.Time) (logger : Logger) : Stats × Logger :=
  let logger := s.printStats now logger
  let s := s.reset
  (s, logger)

/-- Method `Stats.addSession`. -/
def Stats.addSession (s : Stats) : Stats :=
  { s with sessionsProxying := s.sessionsProxying + 1 }

/-- Method `Stats.removeSession`. -/
def Stats.removeSession (s : Stats) : Stats :=
  { s with sessionsProxying := s.sessionsProxying + -1 }

/-- Method `Stats.addCompleted`. -/
def Stats.addCompleted (s : Stats) (nb : Int) (isUpload : Bool) : Stats :=
  if isUpload then
    let s := { s with completeBytesUp := s.completeBytesUp + nb }
    let s := if nb == 0 then { s with zeroByteTunnelsUp := s.zeroByteTunnelsUp + 1 } else s
    { s with completedSessions := s.completedSessions + 1 }
  else
    let s := { s with completeBytesDown := s.completeBytesDown + nb }
    if nb == 0 then { s with zeroByteTunnelsDown := s.zeroByteTunnelsDown + 1 } else s

/-- Method `Stats.addBytes`. -/
def Stats.addBytes (s : Stats) (nb : Int) (isUpload : Bool) : Stats :=
  if isUpload then { s with newBytesUp := s.newBytesUp + nb }
  else { s with newBytesDown := s.newBytesDown + nb }

/-! ## `proxy.go` -/

/-- The struct `tunnelStats` without its pointer `proxyStats`, which is the shared `Stats`
that the methods below take and return. -/
structure tunnelStats where
  Duration : Int
  BytesUp : Int
  BytesDown : Int
  CovertDialErr : String
  CovertConnErr : String
  ClientConnErr : String
  PhantomAddr : String
  PhantomDstPort : Nat
  TunnelCount : Nat
  V6 : Bool
  ASN : Nat
  CC : String
  Transport : String
  Registrar : String
  LibVer : Nat
  Gen : Nat
  TransportOpts : List String
  RegOpts : List String
  Tags : List String
deriving DecidableEq, Repr

/-- The zero value `tunnelStats{}`: a tunnel that has moved no bytes and has no `Duration`. -/
def tunnelStats.zero : tunnelStats :=
  { Duration := 0, BytesUp := 0, BytesDown := 0, CovertDialErr := "", CovertConnErr := "",
    ClientConnErr := "", PhantomAddr := "", PhantomDstPort := 0, TunnelCount := 0, V6 := false,
    ASN := 0, CC := "", Transport := "", Registrar := "", LibVer := 0, Gen := 0,
    TransportOpts := [], RegOpts := [], Tags := [] }

/-- Method `tunnelStats.completed`; `s` is the `Stats` behind `ts.proxyStats`. -/
def tunnelStats.completed (ts : tunnelStats) (isUpload : Bool) (s : Stats) :
    tunnelStats × Stats :=
  if isUpload then (ts, s.addCompleted ts.BytesUp isUpload)
  else (ts, s.addCompleted ts.BytesDown isUpload)

/-- Method `tunnelStats.duration`; it does not reach `ts.proxyStats`. -/
def tunnelStats.duration (ts : tunnelStats) (duration : Int) (_isUpload : Bool) : tunnelStats :=
  if ts.Duration == 0 then { ts with Duration := duration } else ts

/-- Method `tunnelStats.addBytes`; `s` is the `Stats` behind `ts.proxyStats`. -/
def tunnelStats.addBytes (ts : tunnelStats) (n : Int) (isUpload : Bool) (s : Stats) :
    tunnelStats × Stats :=
  let ts := if isUpload then { ts with BytesUp := ts.BytesUp + n }
    else { ts with BytesDown := ts.BytesDown + n }
  (ts, s.addBytes n isUpload)

/-! ## The end-to-end scenario -/

/-- One tunnel of the end-to-end scenario: a new `tunnelStats` reports `p.1` uploaded and
`p.2` downloaded bytes through `addBytes` and then calls `completed(true)` and
`completed(false)`, all on the shared `Stats`. -/
def runTunnel (p : Int × Int) (s : Stats) : tunnelStats × Stats :=
  let (ts, s) := tunnelStats.zero.addBytes p.1 true s
  let (ts, s) := ts.addBytes p.2 false s
  let (ts, s) := ts.completed true s
  ts.completed false s

/-- The tunnels of a list run one after the other on the shared `Stats`. -/
def runTunnels (l : List (Int × Int)) (s : Stats) : Stats :=
  l.foldl (fun s p => (runTunnel p s).2) s

/-- Number of tunnels of the list that uploaded no byte. -/
def zeroUp (l : List (Int × Int)) : Nat := l.countP (fun p => p.1 == 0)

/-- Number of tunnels of the list that downloaded no byte. -/
def zeroDown (l : List (Int × Int)) : Nat := l.countP (fun p => p.2 == 0)

/-- Bytes uploaded by all tunnels of the list. -/
def sumUp (l : List (Int × Int)) : Int := (l.map Prod.fst).sum

/-- Bytes downloaded by all tunnels of the list. -/
def sumDown (l : List (Int × Int)) : Int := (l.map Prod.snd).sum

/-! ## The watcher goroutine `mContext.run` -/

/-- Method `mContext.Err`: the terminal error read under the mutex. -/
def mContext.Err (c : mContext) : Option String := c.err

/-- The two parents of a merged lifecycle. -/
inductive Parent where
  | mainCtx
  | ctx
deriving DecidableEq, Repr

/-- Where the goroutine `c.run()` stands: blocked in its `select`; past the `select` with
`doneCtx` assigned and before `c.mu.Lock()`; past `c.mu.Unlock()` with the error stored and
before `close(c.done)`; returned. -/
inductive RunPC where
  | selecting
  | locking
  | closing
  | returned
deriving DecidableEq, Repr

/-- A merged lifecycle together with its watcher: the `mContext` (whose parents move on by
their own done events), the watcher's position, its local `doneCtx`, and the number of
`close(c.done)` executed so far. -/
structure Watched where
  c : mContext
  pc : RunPC
  doneCtx : Option Parent
  closes : Nat
deriving DecidableEq, Repr

/-- The parent a `Parent` names. -/
def Watched.parent (w : Watched) : Parent → Context
  | Parent.mainCtx => w.c.mainCtx
  | Parent.ctx => w.c.ctx

/-- The contract of `context.Context`: `Err()` is `nil` until `Done()` is closed and non-nil
from then on. -/
def Context.lawful (c : Context) : Prop := c.isDone = true ↔ c.err ≠ none

instance (c : Context) : Decidable c.lawful :=
  inferInstanceAs (Decidable (c.isDone = true ↔ c.err ≠ none))

/-- A parent ends: its `Done()` channel is closed and its `Err()` is `e` from now on. -/
def Context.finish (c : Context) (e : String) : Context :=
  { c with isDone := true, err := some e }

/-- The steps of a merged lifecycle: a parent that is still live ends with error `e`; the
`select` of `run` receives from a parent's `Done()`; the `select` receives from `c.done`;
the watcher runs lines 60-66 (`c.mu.Lock()` to `c.mu.Unlock()`); the watcher runs
`close(c.done)`. -/
inductive Event where
  | parentDone (p : Parent) (e : String)
  | selectParent (p : Parent)
  | selectSelf
  | lockedSection
  | closeDone
deriving DecidableEq, Repr

/-- One step of a merged lifecycle; `none` when the step cannot be taken in this state. -/
def step (ev : Event) (w : Watched) : Option Watched :=
  match ev with
  | Event.parentDone p e =>
    if (w.parent p).isDone = true then none
    else
      match p with
      | Parent.mainCtx => some { w with c := { w.c with mainCtx := w.c.mainCtx.finish e } }
      | Parent.ctx => some { w with c := { w.c with ctx := w.c.ctx.finish e } }
  | Event.selectParent p =>
    if w.pc = RunPC.selecting ∧ (w.parent p).isDone = true then
      some { w with pc := RunPC.locking, doneCtx := some p }
    else none
  | Event.selectSelf =>
    if w.pc = RunPC.selecting ∧ w.c.done = true then some { w with pc := RunPC.returned }
    else none
  | Event.lockedSection =>
    if w.pc = RunPC.locking then
      match w.doneCtx with
      | none => none
      | some p =>
        if w.c.err ≠ none then some { w with pc := RunPC.returned }
        else some { w with c := { w.c with err := (w.parent p).err }, pc := RunPC.closing }
    else none
  | Event.closeDone =>
    if w.pc = RunPC.closing then
      some { w with c := { w.c with done := true }, closes := w.closes + 1,
                    pc := RunPC.returned }
    else none

/-- A sequence of steps, `none` as soon as one of them cannot be taken. -/
def exec : List Event → Watched → Option Watched
  | [], w => some w
  | ev :: evs, w => (step ev w).bind (exec evs)

/-- The state that `mergeContexts(mainCtx, ctx)` leaves: the new `mContext` and its watcher,
started by `go c.run()`, at its `select`. -/
def watch (mainCtx ctx : Context) : Watched :=
  { c := mergeContexts mainCtx ctx, pc := RunPC.selecting, doneCtx := none, closes := 0 }

/-- The invariant of a merged lifecycle and its watcher: both parents keep the contract of
`context.Context`, the parent in `doneCtx` has ended, and at each position of the watcher the
error, the `done` channel and the count of `close(c.done)` are as that position leaves them. -/
def Watched.Inv (w : Watched) : Prop :=
  w.c.mainCtx.lawful ∧ w.c.ctx.lawful ∧
  (∀ p, w.doneCtx = some p → (w.parent p).isDone = true) ∧
  (w.pc = RunPC.selecting → w.c.err = none ∧ w.c.done = false ∧ w.closes = 0) ∧
  (w.pc = RunPC.locking →
    w.c.err = none ∧ w.c.done = false ∧ w.closes = 0 ∧ w.doneCtx ≠ none) ∧
  (w.pc = RunPC.closing →
    w.c.done = false ∧ w.closes = 0 ∧ ∃ p, w.doneCtx = some p ∧ w.c.err = (w.parent p).err) ∧
  (w.pc = RunPC.returned →
    w.c.done = true ∧ w.closes = 1 ∧ ∃ p, w.doneCtx = some p ∧ w.c.err = (w.parent p).err)

/-! ## Sequences of calls -/

/-- A sequence of `addSession` (`true`) and `removeSession` (`false`) calls on a `Stats`. -/
def sessionCalls (l : List Bool) (s : Stats) : Stats :=
  l.foldl (fun s b => if b then s.addSession else s.removeSession) s

/-- A call of one of the methods of `Stats` that write to it. -/
inductive StatsCall where
  | addSession
  | removeSession
  | addBytes (nb : Int) (isUpload : Bool)
  | addCompleted (nb : Int) (isUpload : Bool)
  | reset
deriving DecidableEq, Repr

/-- The `Stats` after one call. -/
def Stats.call (s : Stats) : StatsCall → Stats
  | StatsCall.addSession => s.addSession
  | StatsCall.removeSession => s.removeSession
  | StatsCall.addBytes nb isUpload => s.addBytes nb isUpload
  | StatsCall.addCompleted nb isUpload => s.addCompleted nb isUpload
  | StatsCall.reset => s.reset

/-- The `Stats` after a sequence of calls, each executed as one step. -/
def Stats.calls (s : Stats) (l : List StatsCall) : Stats := l.foldl Stats.call s

/-- A call `addBytes(n, isUpload)` on the tunnel at position `tunnel` of a list of tunnels. -/
structure AddBytesCall where
  tunnel : Nat
  n : Int
  isUpload : Bool
deriving DecidableEq, Repr

/-- One `addBytes` call on one of the tunnels that share a `Stats`; a call that names no
tunnel of the list is no call. -/
def callAddBytes (st : List tunnelStats × Stats) (c : AddBytesCall) :
    List tunnelStats × Stats :=
  match st.1[c.tunnel]? with
  | none => st
  | some ts => (st.1.set c.tunnel (ts.addBytes c.n c.isUpload st.2).1,
                (ts.addBytes c.n c.isUpload st.2).2)

/-- A sequence of `addBytes` calls on tunnels that share a `Stats`. -/
def callsAddBytes (l : List AddBytesCall) (st : List tunnelStats × Stats) :
    List tunnelStats × Stats :=
  l.foldl callAddBytes st

/-- Sum of `BytesUp` over a list of tunnels. -/
def totalBytesUp (tunnels : List tunnelStats) : Int := (tunnels.map (fun t => t.BytesUp)).sum

/-- Sum of `BytesDown` over a list of tunnels. -/
def totalBytesDown (tunnels : List tunnelStats) : Int :=
  (tunnels.map (fun t => t.BytesDown)).sum

/-- Number of tunnels of the list that uploaded at least one byte. -/
def nonZeroUp (l : List (Int × Int)) : Nat := l.countP (fun p => p.1 != 0)

/-- Number of tunnels of the list that downloaded at least one byte. -/
def nonZeroDown (l : List (Int × Int)) : Nat := l.countP (fun p => p.2 != 0)

/-! ## The arguments of `logger.Printf` -/

/-- An argument of `logger.Printf` in `printStats`: an `int64` or a `float64`. -/
inductive Arg where
  | int (v : Int)
  | float (v : ℚ)
deriving DecidableEq

/-- The verb that prints an argument: `%d` for an `int64`, `%f` for a `float64`. -/
def Arg.verb : Arg → Char
  | Arg.int _ => 'd'
  | Arg.float _ => 'f'

/-- The format string `fmtStr` of `printStats`. -/
def fmtStr : String := "proxy-stats:%d %d %f %d %f %d %d %d %f %f"

/-- The verbs of a format string: the characters that follow a `%`. -/
def verbs : List Char → List Char
  | '%' :: v :: rest => v :: verbs rest
  | _ :: rest => verbs rest
  | [] => []

/-- The arguments of the `logger.Printf` call of `printStats`, in the order of the call. -/
def StatsRecord.args (r : StatsRecord) : List Arg :=
  [Arg.int r.sessionsProxying, Arg.int r.newBytesUp, Arg.float r.rateUp,
   Arg.int r.newBytesDown, Arg.float r.rateDown, Arg.int r.completedSessions,
   Arg.int r.zeroByteTunnelsUp, Arg.int r.zeroByteTunnelsDown, Arg.float r.avgNonZeroUp,
   Arg.float r.avgNonZeroDown]

/-! ## The byte counters in `int64` arithmetic -/

/-- Constant `math.MaxInt64`. -/
def MaxInt64 : Int := 2 ^ 63 - 1

/-- Constant `math.MinInt64`. -/
def MinInt64 : Int := -2 ^ 63

/-- The values an `int64` holds. -/
def isInt64 (x : Int) : Prop := MinInt64 ≤ x ∧ x ≤ MaxInt64

instance (x : Int) : Decidable (isInt64 x) :=
  inferInstanceAs (Decidable (MinInt64 ≤ x ∧ x ≤ MaxInt64))

/-- Function `atomic.AddInt64(addr, delta)`: the sum of `*addr` and `delta` in `int64`, which
wraps around at `MaxInt64` and `MinInt64`. -/
def AddInt64 (v delta : Int) : Int := wrap64 (v + delta)

/-- Method `Stats.addBytes` with the wrap-around of `atomic.AddInt64`. -/
def Stats.addBytesInt64 (s : Stats) (nb : Int) (isUpload : Bool) : Stats :=
  if isUpload then { s with newBytesUp := AddInt64 s.newBytesUp nb }
  else { s with newBytesDown := AddInt64 s.newBytesDown nb }

/-- Method `tunnelStats.addBytes` with the wrap-around of `atomic.AddInt64`; it is
`tunnelStats.addBytes` as long as the sums stay `int64` values. -/
def tunnelStats.addBytesInt64 (ts : tunnelStats) (n : Int) (isUpload : Bool) (s : Stats) :
    tunnelStats × Stats :=
  let ts := if isUpload then { ts with BytesUp := AddInt64 ts.BytesUp n }
    else { ts with BytesDown := AddInt64 ts.BytesDown n }
  (ts, s.addBytesInt64 n isUpload)

/-! ## Lemmas on `time` -/

theorem zero_UnixNano : time.Time.zero.UnixNano = -6795364578871345152 := by decide

theorem wrap64_of_range (x : Int) (h1 : -2 ^ 63 ≤ x) (h2 : x < 2 ^ 63) : wrap64 x = x := by
  unfold wrap64
  rw [Int.emod_eq_of_lt (by omega) (by omega)]
  omega

/-- Within the range of instants whose nanosecond count fits an `int64`, `UnixNano` is the
exact count of nanoseconds since 1970. -/
theorem UnixNano_exact (t : time.Time)
    (h1 : -2 ^ 63 ≤ (t.sec - time.unixToInternal) * 1000000000 + t.nsec)
    (h2 : (t.sec - time.unixToInternal) * 1000000000 + t.nsec < 2 ^ 63)
    (h3 : 0 ≤ t.nsec) (h4 : t.nsec < 1000000000) :
    t.UnixNano = (t.sec - time.unixToInternal) * 1000000000 + t.nsec := by
  have hu : time.unixToInternal = 62135596800 := by decide
  rw [hu] at h1 h2 ⊢
  have hs : t.unixSec = t.sec - 62135596800 := by
    unfold time.Time.unixSec time.internalToUnix
    rw [hu, wrap64_of_range] <;> omega
  unfold time.Time.UnixNano
  rw [hs, wrap64_of_range] <;> omega

/-! ## `mContext.Deadline` -/

/-- The result of `mContext.Deadline` in terms of what the two parents report. -/
theorem Deadline_eq (c : mContext) :
    c.Deadline =
      (if c.ctx.ok = true ∧ c.ctx.deadline.UnixNano < c.mainCtx.deadline.UnixNano
        then c.ctx.deadline
        else if c.mainCtx.ok = true then c.mainCtx.deadline else time.Time.zero,
       c.ctx.ok || c.mainCtx.ok) := by
  simp only [mContext.Deadline, Context.Deadline, Bool.and_eq_true, decide_eq_true_eq]

/-- When only the main parent has a deadline, the merged deadline is that deadline. -/
theorem Deadline_main_only (c : mContext) (h1 : c.ctx.ok = false) (h2 : c.mainCtx.ok = true) :
    c.Deadline = (c.mainCtx.deadline, true) := by
  rw [Deadline_eq]
  simp [h1, h2]

/-- Among instants that `UnixNano` represents exactly, the order of the `UnixNano()` values
is the chronological order. -/
theorem UnixNano_lt_iff_Before (t u : time.Time) (ht : t.inNanoRange) (hu : u.inNanoRange) :
    t.UnixNano < u.UnixNano ↔ t.Before u := by
  obtain ⟨t1, t2, t3, t4⟩ := ht
  obtain ⟨u1, u2, u3, u4⟩ := hu
  rw [UnixNano_exact t t1 t2 t3 t4, UnixNano_exact u u1 u2 u3 u4]
  unfold time.Time.Before
  constructor
  · intro h
    omega
  · intro h
    omega

/-- When both parents report deadlines that `UnixNano` represents exactly, the merged deadline
is the request deadline if that one is chronologically before the manager deadline, and the
manager deadline otherwise. -/
theorem Deadline_both_earlier (c : mContext) (h1 : c.ctx.ok = true) (h2 : c.mainCtx.ok = true)
    (r1 : c.ctx.deadline.inNanoRange) (r2 : c.mainCtx.deadline.inNanoRange) :
    c.Deadline =
      (if c.ctx.deadline.Before c.mainCtx.deadline then c.ctx.deadline else c.mainCtx.deadline,
       true) := by
  rw [Deadline_eq]
  simp only [UnixNano_lt_iff_Before _ _ r1 r2, h1, h2, true_and, Bool.or_self, if_true]

/-- C1 (evaluation at the failing input): the request parent `ctx` has the deadline
2024-01-01T00:00:00Z and the manager parent `mainCtx` is `context.Background()`, so exactly
one parent reports a deadline; `mContext.Deadline` returns the zero `time.Time` with
`ok = true`, not that deadline. -/
theorem Deadline_request_deadline_lost_2024 :
    (WithDeadline (time.Unix 1704067200 0)).Deadline = (time.Unix 1704067200 0, true) ∧
    Background.Deadline = (time.Time.zero, false) ∧
    (mergeContexts Background (WithDeadline (time.Unix 1704067200 0))).Deadline
      = (time.Time.zero, true) ∧
    time.Time.zero ≠ time.Unix 1704067200 0 := by
  decide

/-- When both parents report a deadline, `mContext.Deadline` returns `ok = true` and one of
the two deadlines, the one whose `UnixNano()` is the minimum of the two; with the parents
exchanged the returned deadline has the same `UnixNano()`. -/
theorem Deadline_both_min (c : mContext) (h1 : c.ctx.ok = true) (h2 : c.mainCtx.ok = true) :
    c.Deadline.2 = true ∧
    (c.Deadline.1 = c.ctx.deadline ∨ c.Deadline.1 = c.mainCtx.deadline) ∧
    c.Deadline.1.UnixNano = min c.ctx.deadline.UnixNano c.mainCtx.deadline.UnixNano ∧
    ({ c with mainCtx := c.ctx, ctx := c.mainCtx } : mContext).Deadline.2 = true ∧
    ({ c with mainCtx := c.ctx, ctx := c.mainCtx } : mContext).Deadline.1.UnixNano
      = c.Deadline.1.UnixNano := by
  simp only [Deadline_eq, h1, h2, true_and, Bool.or_self, if_true]
  rcases lt_trichotomy c.ctx.deadline.UnixNano c.mainCtx.deadline.UnixNano with h | h | h
  · simp [h, not_lt_of_lt h, min_eq_left (le_of_lt h)]
  · simp [h]
  · simp [h, not_lt_of_lt h, min_eq_right (le_of_lt h)]

/-- Two instants neither of which is before the other are the same instant. -/
theorem Time_eq_of_not_Before (t u : time.Time) (h1 : ¬ t.Before u) (h2 : ¬ u.Before t) :
    t = u := by
  obtain ⟨ts, tn⟩ := t
  obtain ⟨us, un⟩ := u
  simp only [time.Time.Before, not_or, not_and, not_lt] at h1 h2
  have hs : ts = us := le_antisymm h2.1 h1.1
  subst hs
  have hn : tn = un := le_antisymm (h2.2 rfl) (h1.2 rfl)
  subst hn
  rfl

/-- C2 (counterexample): the parents report the deadlines 2100-01-01T00:00:00Z and
2301-01-01T00:00:00Z.  The `UnixNano()` of the second has wrapped to a negative value, and
`mContext.Deadline` returns the later deadline, 2301, whichever parent holds which. -/
theorem Deadline_both_2100_2301 :
    (time.Unix 4102444800 0).wellFormed ∧ (time.Unix 10445328000 0).wellFormed ∧
    (time.Unix 4102444800 0).Before (time.Unix 10445328000 0) ∧
    (time.Unix 10445328000 0).UnixNano = -8001416073709551616 ∧
    (mergeContexts (WithDeadline (time.Unix 4102444800 0))
        (WithDeadline (time.Unix 10445328000 0))).Deadline
      = (time.Unix 10445328000 0, true) ∧
    (mergeContexts (WithDeadline (time.Unix 10445328000 0))
        (WithDeadline (time.Unix 4102444800 0))).Deadline
      = (time.Unix 10445328000 0, true) := by
  decide

/-- C2 (amended): when both parents report a deadline, `mContext.Deadline` returns `ok = true`
and the one of the two deadlines whose `UnixNano()` is smaller, whichever parent holds which.
When both deadlines are instants that `UnixNano` represents exactly, this is the earlier of the
two: neither deadline is before the returned one, and the result is the same with the parents
exchanged. -/
theorem Deadline_smaller_UnixNano (c : mContext) (h1 : c.ctx.ok = true)
    (h2 : c.mainCtx.ok = true) :
    c.Deadline.2 = true ∧
    (c.Deadline.1 = c.ctx.deadline ∨ c.Deadline.1 = c.mainCtx.deadline) ∧
    c.Deadline.1.UnixNano = min c.ctx.deadline.UnixNano c.mainCtx.deadline.UnixNano ∧
    ({ c with mainCtx := c.ctx, ctx := c.mainCtx } : mContext).Deadline.2 = true ∧
    ({ c with mainCtx := c.ctx, ctx := c.mainCtx } : mContext).Deadline.1.UnixNano
      = c.Deadline.1.UnixNano ∧
    (c.ctx.deadline.inNanoRange → c.mainCtx.deadline.inNanoRange →
      c.Deadline.1
        = (if c.ctx.deadline.Before c.mainCtx.deadline then c.ctx.deadline
           else c.mainCtx.deadline) ∧
      ¬ c.ctx.deadline.Before c.Deadline.1 ∧
      ¬ c.mainCtx.deadline.Before c.Deadline.1 ∧
      ({ c with mainCtx := c.ctx, ctx := c.mainCtx } : mContext).Deadline = c.Deadline) := by
  obtain ⟨m1, m2, m3, m4, m5⟩ := Deadline_both_min c h1 h2
  refine ⟨m1, m2, m3, m4, m5, ?_⟩
  intro r1 r2
  have e1 := Deadline_both_earlier c h1 h2 r1 r2
  have e2 := Deadline_both_earlier { c with mainCtx := c.ctx, ctx := c.mainCtx } h2 h1 r2 r1
  simp only at e2
  have irr : ∀ t : time.Time, ¬ t.Before t := by
    intro t h
    simp [time.Time.Before] at h
  have asym : ∀ t u : time.Time, t.Before u → ¬ u.Before t := by
    intro t u h h'
    simp only [time.Time.Before] at h h'
    omega
  rw [e1, e2]
  by_cases hb : c.ctx.deadline.Before c.mainCtx.deadline
  · have hb2 := asym _ _ hb
    simp [hb, hb2, irr]
  · by_cases hb2 : c.mainCtx.deadline.Before c.ctx.deadline
    · simp [hb, hb2, irr]
    · have heq := Time_eq_of_not_Before _ _ hb hb2
      simp [hb, hb2, irr, heq]

/-- C2 witness: deadlines 2024-01-01T00:00:00Z on `ctx` and 2023-01-01T00:00:00Z on
`mainCtx`; the merged deadline is 2023-01-01T00:00:00Z. -/
theorem Deadline_smaller_UnixNano_witness :
    (WithDeadline (time.Unix 1704067200 0)).ok = true ∧
    (WithDeadline (time.Unix 1672531200 0)).ok = true ∧
    (time.Unix 1704067200 0).inNanoRange ∧ (time.Unix 1672531200 0).inNanoRange ∧
    (mergeContexts (WithDeadline (time.Unix 1672531200 0))
        (WithDeadline (time.Unix 1704067200 0))).Deadline
      = (time.Unix 1672531200 0, true) ∧
    ¬ (time.Unix 1704067200 0).Before
        (mergeContexts (WithDeadline (time.Unix 1672531200 0))
          (WithDeadline (time.Unix 1704067200 0))).Deadline.1 :=
  ⟨rfl, rfl, by decide, by decide, by decide,
   ((Deadline_smaller_UnixNano (mergeContexts (WithDeadline (time.Unix 1672531200 0))
      (WithDeadline (time.Unix 1704067200 0))) rfl rfl).2.2.2.2.2
      (by decide) (by decide)).2.1⟩

/-- C3 (counterexample): the request parent has the deadline 1700-01-01T00:00:00Z and the
manager parent is `context.Background()`, which reports the zero `time.Time`;
`mContext.Deadline` returns the request parent's deadline, not the zero `time.Time`. -/
theorem Deadline_request_deadline_kept_1700 :
    (WithDeadlineExpired (time.Unix (-8520336000) 0)).ok = true ∧
    (time.Unix (-8520336000) 0).wellFormed ∧
    Background.Deadline = (time.Time.zero, false) ∧
    (mergeContexts Background (WithDeadlineExpired (time.Unix (-8520336000) 0))).Deadline
      = (time.Unix (-8520336000) 0, true) ∧
    time.Unix (-8520336000) 0 ≠ time.Time.zero := by
  decide

/-- C3 (amended): when only the request parent `ctx` has a deadline and the manager parent
reports `(time.Time{}, false)`, `mContext.Deadline` returns `ok = true`, with the zero
`time.Time` when the `UnixNano()` of the request deadline is not below that of the zero
`time.Time`, which is `-6795364578871345152`, and with the request deadline otherwise. -/
theorem Deadline_only_ctx (c : mContext) (h1 : c.ctx.ok = true)
    (h2 : c.mainCtx.Deadline = (time.Time.zero, false)) :
    time.Time.zero.UnixNano = -6795364578871345152 ∧
    (-6795364578871345152 ≤ c.ctx.deadline.UnixNano → c.Deadline = (time.Time.zero, true)) ∧
    (c.ctx.deadline.UnixNano < -6795364578871345152 → c.Deadline = (c.ctx.deadline, true)) := by
  have hz := zero_UnixNano
  simp only [Context.Deadline, Prod.mk.injEq] at h2
  obtain ⟨hd, hok⟩ := h2
  refine ⟨hz, ?_, ?_⟩
  · intro h
    rw [Deadline_eq, hd, hok, hz, h1]
    simp [not_lt_of_le h]
  · intro h
    rw [Deadline_eq, hd, hok, hz, h1]
    simp [h]

/-- C3 witness: the request deadline 2024-01-01T00:00:00Z is lost. -/
theorem Deadline_only_ctx_witness :
    (WithDeadline (time.Unix 1704067200 0)).ok = true ∧
    Background.Deadline = (time.Time.zero, false) ∧
    -6795364578871345152 ≤ (time.Unix 1704067200 0).UnixNano ∧
    (mergeContexts Background (WithDeadline (time.Unix 1704067200 0))).Deadline
      = (time.Time.zero, true) :=
  ⟨rfl, rfl, by decide,
   (Deadline_only_ctx (mergeContexts Background (WithDeadline (time.Unix 1704067200 0)))
      rfl rfl).2.1 (by decide)⟩

/-- C4: `mContext.Deadline` reports `ok = false` exactly when neither parent reports a
deadline, and then the time it returns is the zero `time.Time`. -/
theorem Deadline_not_ok_iff (c : mContext) :
    (c.Deadline.2 = false ↔ (c.ctx.ok = false ∧ c.mainCtx.ok = false)) ∧
    (c.ctx.ok = false → c.mainCtx.ok = false → c.Deadline = (time.Time.zero, false)) := by
  constructor
  · rw [Deadline_eq]
    simp
  · intro h1 h2
    rw [Deadline_eq]
    simp [h1, h2]

/-- C4 witness: two parents without deadline. -/
theorem Deadline_not_ok_iff_witness :
    Background.ok = false ∧
    (mergeContexts Background Background).Deadline = (time.Time.zero, false) :=
  ⟨rfl, (Deadline_not_ok_iff (mergeContexts Background Background)).2 rfl rfl⟩

/-! ## `tunnelStats.duration` -/

/-- C5 (counterexample): on a new `tunnelStats`, `duration(0, upload)` and then
`duration(9ms, download)` leave `Duration` at 9ms, not at the first elapsed value `0`. -/
theorem duration_zero_then_9ms :
    tunnelStats.zero.Duration = 0 ∧
    ((tunnelStats.zero.duration 0 true).duration 9000000 false).Duration = 9000000 ∧
    ((tunnelStats.zero.duration 0 true).duration 9000000 false).Duration ≠ 0 := by
  decide

/-- C5 (amended): on a `tunnelStats` whose `Duration` is unset (`0`), for every elapsed value
`e1` other than `0`, every `e2` and every two directions, `duration(e1, dirA)` and then
`duration(e2, dirB)` leave `Duration` equal to `e1`, and the second call changes no field. -/
theorem duration_latch (ts : tunnelStats) (e1 e2 : Int) (dirA dirB : Bool)
    (h0 : ts.Duration = 0) (h1 : e1 ≠ 0) :
    ((ts.duration e1 dirA).duration e2 dirB).Duration = e1 ∧
    (ts.duration e1 dirA).duration e2 dirB = ts.duration e1 dirA := by
  have hfirst : ts.duration e1 dirA = { ts with Duration := e1 } := by
    simp [tunnelStats.duration, h0]
  have hsecond : (ts.duration e1 dirA).duration e2 dirB = ts.duration e1 dirA := by
    rw [hfirst]
    simp [tunnelStats.duration, h1]
  rw [hsecond]
  exact ⟨by rw [hfirst], rfl⟩

/-- C5 witness: 5ms for upload and then 9ms for download leave 5ms. -/
theorem duration_latch_witness :
    tunnelStats.zero.Duration = 0 ∧ (5000000 : Int) ≠ 0 ∧
    ((tunnelStats.zero.duration 5000000 true).duration 9000000 false).Duration = 5000000 ∧
    (tunnelStats.zero.duration 5000000 true).duration 9000000 false
      = tunnelStats.zero.duration 5000000 true :=
  ⟨rfl, by decide, duration_latch tunnelStats.zero 5000000 9000000 true false rfl (by decide)⟩

/-- The opposite order of the example: 9ms for download and then 5ms for upload leave 9ms. -/
theorem duration_opposite_order :
    ((tunnelStats.zero.duration 9000000 false).duration 5000000 true).Duration = 9000000 := by
  decide

/-! ## `Stats.PrintAndReset` and the epoch start time -/

/-- Neither `printStats` nor `reset` writes the embedded `time.Time`. -/
theorem PrintAndReset_Time (s : Stats) (now : time.Time) (logger : Logger) :
    (s.PrintAndReset now logger).1.Time = s.Time := rfl

/-- C6 (evaluation at the failing input): `PrintAndReset` called on the singleton as
`initStats` made it, at 2024-01-01T00:00:00Z, leaves the epoch start time at the zero
`time.Time`; it is not the time of the call. -/
theorem PrintAndReset_epoch_start_2024 :
    (Stats.zero.PrintAndReset (time.Unix 1704067200 0) []).1.Time = time.Time.zero ∧
    (Stats.zero.PrintAndReset (time.Unix 1704067200 0) []).1.Time
      ≠ time.Unix 1704067200 0 := by
  constructor
  · rfl
  · rw [PrintAndReset_Time]
    decide

/-! ## Completion accounting -/

/-- The `Stats` after one tunnel of the scenario. -/
theorem runTunnel_stats (p : Int × Int) (s : Stats) :
    (runTunnel p s).2 =
      { Time := s.Time, sessionsProxying := s.sessionsProxying,
        newBytesUp := s.newBytesUp + p.1, newBytesDown := s.newBytesDown + p.2,
        completeBytesUp := s.completeBytesUp + p.1,
        completeBytesDown := s.completeBytesDown + p.2,
        zeroByteTunnelsUp := s.zeroByteTunnelsUp + (if p.1 = 0 then 1 else 0),
        zeroByteTunnelsDown := s.zeroByteTunnelsDown + (if p.2 = 0 then 1 else 0),
        completedSessions := s.completedSessions + 1 } := by
  obtain ⟨u, d⟩ := p
  by_cases hu : u = 0 <;> by_cases hd : d = 0 <;>
    simp [runTunnel, tunnelStats.addBytes, tunnelStats.completed, Stats.addBytes,
      Stats.addCompleted, tunnelStats.zero, hu, hd]

/-- The `Stats` after all tunnels of the scenario. -/
theorem runTunnels_stats (l : List (Int × Int)) (s : Stats) :
    runTunnels l s =
      { Time := s.Time, sessionsProxying := s.sessionsProxying,
        newBytesUp := s.newBytesUp + sumUp l, newBytesDown := s.newBytesDown + sumDown l,
        completeBytesUp := s.completeBytesUp + sumUp l,
        completeBytesDown := s.completeBytesDown + sumDown l,
        zeroByteTunnelsUp := s.zeroByteTunnelsUp + zeroUp l,
        zeroByteTunnelsDown := s.zeroByteTunnelsDown + zeroDown l,
        completedSessions := s.completedSessions + l.length } := by
  induction l generalizing s with
  | nil => simp [runTunnels, sumUp, sumDown, zeroUp, zeroDown]
  | cons p l ih =>
    have hstep : runTunnels (p :: l) s = runTunnels l (runTunnel p s).2 := rfl
    rw [hstep, ih, runTunnel_stats]
    obtain ⟨u, d⟩ := p
    by_cases hu : u = 0 <;> by_cases hd : d = 0 <;>
      simp [sumUp, sumDown, zeroUp, zeroDown, List.countP_cons, hu, hd] <;> omega

/-- Bytes reported in two chunks amount to one report of their sum. -/
theorem addBytes_addBytes (ts : tunnelStats) (s : Stats) (a b : Int) (isUpload : Bool) :
    (ts.addBytes a isUpload s).1.addBytes b isUpload (ts.addBytes a isUpload s).2
      = ts.addBytes (a + b) isUpload s := by
  cases isUpload <;> simp [tunnelStats.addBytes, Stats.addBytes, add_assoc]

/-- Two `addCompleted` calls on the shared `Stats` give the same state in either order. -/
theorem addCompleted_comm (s : Stats) (a b : Int) (x y : Bool) :
    (s.addCompleted a x).addCompleted b y = (s.addCompleted b y).addCompleted a x := by
  cases x <;> cases y <;> by_cases ha : a = 0 <;> by_cases hb : b = 0 <;>
    simp [Stats.addCompleted, ha, hb, add_comm, add_left_comm]

/-- An `addBytes` and an `addCompleted` call on the shared `Stats` give the same state in
either order. -/
theorem addBytes_addCompleted_comm (s : Stats) (a b : Int) (x y : Bool) :
    (s.addBytes a x).addCompleted b y = (s.addCompleted b y).addBytes a x := by
  cases x <;> cases y <;> by_cases hb : b = 0 <;>
    simp [Stats.addCompleted, Stats.addBytes, hb]

/-- C7: from a freshly reset `Stats`, after the tunnels of a list of (upload, download) byte
pairs have each reported their bytes through `addBytes` and called `completed(true)` and
`completed(false)`, `completedSessions` is the number of tunnels, the zero-byte counters are
the numbers of tunnels with no uploaded and with no downloaded byte, and the completed bytes
are the sums of the uploaded and of the downloaded bytes.  The record of a `PrintAndReset`
that follows carries these values (the byte sums as the epoch's bytes and as the numerators of
the two averages), and the record of a second `PrintAndReset` is `0` in every field but the
gauge.  For the pairs (0,50), (100,0), (250,300) the values are 3, 1, 1, 350, 350. -/
theorem end_to_end_aggregation (l : List (Int × Int)) (s : Stats) (now1 now2 : time.Time)
    (logger : Logger) :
    (runTunnels l s.reset).completedSessions = l.length ∧
    (runTunnels l s.reset).zeroByteTunnelsUp = zeroUp l ∧
    (runTunnels l s.reset).zeroByteTunnelsDown = zeroDown l ∧
    (runTunnels l s.reset).completeBytesUp = sumUp l ∧
    (runTunnels l s.reset).completeBytesDown = sumDown l ∧
    ((runTunnels l s.reset).PrintAndReset now1 logger).2 = logger ++
      [{ sessionsProxying := s.sessionsProxying,
         newBytesUp := sumUp l,
         rateUp := (sumUp l : ℚ) / s.epochDur now1 * 1000,
         newBytesDown := sumDown l,
         rateDown := (sumDown l : ℚ) / s.epochDur now1 * 1000,
         completedSessions := l.length,
         zeroByteTunnelsUp := zeroUp l,
         zeroByteTunnelsDown := zeroDown l,
         avgNonZeroUp := (sumUp l : ℚ) / max (((l.length - zeroUp l : Int)) : ℚ) 1,
         avgNonZeroDown := (sumDown l : ℚ) / max (((l.length - zeroDown l : Int)) : ℚ) 1 }] ∧
    ((runTunnels l s.reset).PrintAndReset now1 logger).1 = s.reset ∧
    (((runTunnels l s.reset).PrintAndReset now1 logger).1.PrintAndReset now2
        ((runTunnels l s.reset).PrintAndReset now1 logger).2).2
      = ((runTunnels l s.reset).PrintAndReset now1 logger).2 ++
        [{ sessionsProxying := s.sessionsProxying, newBytesUp := 0, rateUp := 0,
           newBytesDown := 0, rateDown := 0, completedSessions := 0, zeroByteTunnelsUp := 0,
           zeroByteTunnelsDown := 0, avgNonZeroUp := 0, avgNonZeroDown := 0 }] ∧
    (runTunnels [(0, 50), (100, 0), (250, 300)] s.reset).completedSessions = 3 ∧
    (runTunnels [(0, 50), (100, 0), (250, 300)] s.reset).zeroByteTunnelsUp = 1 ∧
    (runTunnels [(0, 50), (100, 0), (250, 300)] s.reset).zeroByteTunnelsDown = 1 ∧
    (runTunnels [(0, 50), (100, 0), (250, 300)] s.reset).completeBytesUp = 350 ∧
    (runTunnels [(0, 50), (100, 0), (250, 300)] s.reset).completeBytesDown = 350 := by
  have hreset : ((runTunnels l s.reset).PrintAndReset now1 logger).1 = s.reset := by
    rw [runTunnels_stats]
    rfl
  refine ⟨?_, ?_, ?_, ?_, ?_, ?_, hreset, ?_, ?_, ?_, ?_, ?_, ?_⟩
  · rw [runTunnels_stats]; simp [Stats.reset]
  · rw [runTunnels_stats]; simp [Stats.reset]
  · rw [runTunnels_stats]; simp [Stats.reset]
  · rw [runTunnels_stats]; simp [Stats.reset]
  · rw [runTunnels_stats]; simp [Stats.reset]
  · rw [runTunnels_stats]
    simp [Stats.PrintAndReset, Stats.printStats, Stats.record, Stats.reset, Stats.epochDur]
  · rw [hreset]
    simp [Stats.PrintAndReset, Stats.printStats, Stats.record, Stats.reset]
  · rw [runTunnels_stats]; simp [Stats.reset]
  · rw [runTunnels_stats]; simp [Stats.reset, zeroUp]
  · rw [runTunnels_stats]; simp [Stats.reset, zeroDown]
  · rw [runTunnels_stats]; simp [Stats.reset, sumUp]
  · rw [runTunnels_stats]; simp [Stats.reset, sumDown]

/-- C8: `completed(true)` adds exactly 1 to `completedSessions` and `completed(false)` leaves
it as it was, for every `tunnelStats` and every `Stats`. -/
theorem completed_completedSessions (ts : tunnelStats) (s : Stats) :
    (ts.completed true s).2.completedSessions = s.completedSessions + 1 ∧
    (ts.completed false s).2.completedSessions = s.completedSessions := by
  constructor
  · simp only [tunnelStats.completed, Stats.addCompleted, if_true]
    split <;> rfl
  · simp only [tunnelStats.completed, Stats.addCompleted, Bool.false_eq_true, if_false]
    split <;> rfl

/-- C9: for each direction, `completed` of a tunnel whose byte count in that direction is `0`
adds exactly 1 to the zero-byte-tunnel counter of the direction and leaves its completed bytes
as they were; with a byte count other than `0` the zero-byte-tunnel counter keeps its value. -/
theorem completed_zero_byte (ts : tunnelStats) (s : Stats) :
    (ts.BytesUp = 0 →
      (ts.completed true s).2.zeroByteTunnelsUp = s.zeroByteTunnelsUp + 1 ∧
      (ts.completed true s).2.completeBytesUp = s.completeBytesUp) ∧
    (ts.BytesUp ≠ 0 →
      (ts.completed true s).2.zeroByteTunnelsUp = s.zeroByteTunnelsUp) ∧
    (ts.BytesDown = 0 →
      (ts.completed false s).2.zeroByteTunnelsDown = s.zeroByteTunnelsDown + 1 ∧
      (ts.completed false s).2.completeBytesDown = s.completeBytesDown) ∧
    (ts.BytesDown ≠ 0 →
      (ts.completed false s).2.zeroByteTunnelsDown = s.zeroByteTunnelsDown) := by
  refine ⟨?_, ?_, ?_, ?_⟩ <;> intro h <;>
    simp [tunnelStats.completed, Stats.addCompleted, h]

/-- C9 witness: a new tunnel, with no byte in either direction, and a tunnel with 100 uploaded
and 50 downloaded bytes. -/
theorem completed_zero_byte_witness :
    ((tunnelStats.zero.completed true Stats.zero).2.zeroByteTunnelsUp = 1 ∧
      (tunnelStats.zero.completed true Stats.zero).2.completeBytesUp = 0) ∧
    ((tunnelStats.zero.completed false Stats.zero).2.zeroByteTunnelsDown = 1 ∧
      (tunnelStats.zero.completed false Stats.zero).2.completeBytesDown = 0) ∧
    (({ tunnelStats.zero with BytesUp := 100, BytesDown := 50 } : tunnelStats).completed
      true Stats.zero).2.zeroByteTunnelsUp = 0 ∧
    (({ tunnelStats.zero with BytesUp := 100, BytesDown := 50 } : tunnelStats).completed
      false Stats.zero).2.zeroByteTunnelsDown = 0 :=
  ⟨(completed_zero_byte tunnelStats.zero Stats.zero).1 rfl,
   (completed_zero_byte tunnelStats.zero Stats.zero).2.2.1 rfl,
   (completed_zero_byte { tunnelStats.zero with BytesUp := 100, BytesDown := 50 }
      Stats.zero).2.1 (by decide),
   (completed_zero_byte { tunnelStats.zero with BytesUp := 100, BytesDown := 50 }
      Stats.zero).2.2.2 (by decide)⟩

/-- C10: `completed(true)` adds `BytesUp` to `completeBytesUp` and `completed(false)` adds
`BytesDown` to `completeBytesDown`; either call leaves the completed bytes and the zero-byte
counter of the other direction, `newBytesUp`, `newBytesDown`, `sessionsProxying` and every
field of the `tunnelStats` as they were. -/
theorem completed_frame (ts : tunnelStats) (s : Stats) :
    ((ts.completed true s).2.completeBytesUp = s.completeBytesUp + ts.BytesUp ∧
      (ts.completed true s).2.completeBytesDown = s.completeBytesDown ∧
      (ts.completed true s).2.zeroByteTunnelsDown = s.zeroByteTunnelsDown ∧
      (ts.completed true s).2.newBytesUp = s.newBytesUp ∧
      (ts.completed true s).2.newBytesDown = s.newBytesDown ∧
      (ts.completed true s).2.sessionsProxying = s.sessionsProxying ∧
      (ts.completed true s).1 = ts) ∧
    ((ts.completed false s).2.completeBytesDown = s.completeBytesDown + ts.BytesDown ∧
      (ts.completed false s).2.completeBytesUp = s.completeBytesUp ∧
      (ts.completed false s).2.zeroByteTunnelsUp = s.zeroByteTunnelsUp ∧
      (ts.completed false s).2.newBytesUp = s.newBytesUp ∧
      (ts.completed false s).2.newBytesDown = s.newBytesDown ∧
      (ts.completed false s).2.sessionsProxying = s.sessionsProxying ∧
      (ts.completed false s).1 = ts) := by
  constructor
  · simp only [tunnelStats.completed, Stats.addCompleted, if_true]
    split <;> simp
  · simp only [tunnelStats.completed, Stats.addCompleted, Bool.false_eq_true, if_false]
    split <;> simp

/-! ## `addBytes`, the reset and the session gauge -/

/-- C11: `addBytes(n, true)` adds `n` to the tunnel's `BytesUp` and to the `newBytesUp` of the
`Stats`, `addBytes(n, false)` adds `n` to `BytesDown` and to `newBytesDown`, and every other
field of the `tunnelStats` and of the `Stats` keeps its value. -/
theorem addBytes_effect (ts : tunnelStats) (s : Stats) (n : Int) :
    (ts.addBytes n true s).1 = { ts with BytesUp := ts.BytesUp + n } ∧
    (ts.addBytes n true s).2 = { s with newBytesUp := s.newBytesUp + n } ∧
    (ts.addBytes n false s).1 = { ts with BytesDown := ts.BytesDown + n } ∧
    (ts.addBytes n false s).2 = { s with newBytesDown := s.newBytesDown + n } := by
  simp [tunnelStats.addBytes, Stats.addBytes]

/-- The `Stats` after `reset`, field by field. -/
theorem reset_eq (s : Stats) :
    s.reset =
      { Time := s.Time, sessionsProxying := s.sessionsProxying, newBytesUp := 0,
        newBytesDown := 0, completeBytesUp := 0, completeBytesDown := 0,
        zeroByteTunnelsUp := 0, zeroByteTunnelsDown := 0, completedSessions := 0 } := rfl

/-- C12: `reset`, `Reset` and `PrintAndReset` store `0` in the seven counters `newBytesUp`,
`newBytesDown`, `completeBytesUp`, `completeBytesDown`, `zeroByteTunnelsUp`,
`zeroByteTunnelsDown`, `completedSessions` and leave `sessionsProxying` as it was; after two
`addSession` calls on the zero `Stats` and a `PrintAndReset` the gauge reads 2. -/
theorem reset_zeroes_counters_keeps_gauge (s : Stats) (now : time.Time) (logger : Logger) :
    (s.reset.newBytesUp = 0 ∧ s.reset.newBytesDown = 0 ∧ s.reset.completeBytesUp = 0 ∧
      s.reset.completeBytesDown = 0 ∧ s.reset.zeroByteTunnelsUp = 0 ∧
      s.reset.zeroByteTunnelsDown = 0 ∧ s.reset.completedSessions = 0 ∧
      s.reset.sessionsProxying = s.sessionsProxying) ∧
    s.Reset = s.reset ∧
    (s.PrintAndReset now logger).1 = s.reset ∧
    (s.PrintAndReset now logger).1.sessionsProxying = s.sessionsProxying ∧
    s.Reset.sessionsProxying = s.sessionsProxying ∧
    (Stats.zero.addSession.addSession.PrintAndReset now logger).1.sessionsProxying = 2 := by
  refine ⟨?_, rfl, rfl, rfl, rfl, rfl⟩
  rw [reset_eq]
  simp

/-- The `Stats` after a sequence of `addSession` and `removeSession` calls: only the gauge
moves, by the number of `addSession` calls minus the number of `removeSession` calls. -/
theorem sessionCalls_eq (l : List Bool) (s : Stats) :
    sessionCalls l s =
      { s with sessionsProxying := s.sessionsProxying + l.count true - l.count false } := by
  induction l generalizing s with
  | nil => simp [sessionCalls]
  | cons b l ih =>
    have hstep : sessionCalls (b :: l) s
        = sessionCalls l (if b then s.addSession else s.removeSession) := rfl
    rw [hstep, ih]
    cases b
    · simp [Stats.removeSession]
      omega
    · simp [Stats.addSession]
      omega

/-- C13: for every `N`, every `Stats` and every sequence made of `N` `addSession` and `N`
`removeSession` calls in any order, the `Stats` after the sequence is the `Stats` before it:
`sessionsProxying` is back at its starting value and no other field has changed. -/
theorem session_gauge_pure_counter (N : Nat) (l : List Bool) (s : Stats)
    (hadd : l.count true = N) (hremove : l.count false = N) :
    (sessionCalls l s).sessionsProxying = s.sessionsProxying ∧ sessionCalls l s = s := by
  have h : sessionCalls l s = s := by
    rw [sessionCalls_eq, hadd, hremove]
    simp
  rw [h]
  exact ⟨rfl, rfl⟩

/-- C13 witness: `addSession`, `addSession`, `removeSession`, `addSession`, `removeSession`,
`removeSession` on a `Stats` whose gauge reads 7. -/
theorem session_gauge_pure_counter_witness :
    [true, true, false, true, false, false].count true = 3 ∧
    [true, true, false, true, false, false].count false = 3 ∧
    (sessionCalls [true, true, false, true, false, false]
      { Stats.zero with sessionsProxying := 7 }).sessionsProxying = 7 ∧
    sessionCalls [true, true, false, true, false, false]
      { Stats.zero with sessionsProxying := 7 } = { Stats.zero with sessionsProxying := 7 } :=
  ⟨by decide, by decide,
   session_gauge_pure_counter 3 [true, true, false, true, false, false]
     { Stats.zero with sessionsProxying := 7 } (by decide) (by decide)⟩

/-! ## The record of `printStats` -/

/-- Every tunnel of a list either uploaded no byte or uploaded at least one. -/
theorem length_eq_zeroUp_add_nonZeroUp (l : List (Int × Int)) :
    l.length = zeroUp l + nonZeroUp l := by
  induction l with
  | nil => rfl
  | cons p l ih =>
    by_cases h : p.1 = 0
    · simp [zeroUp, nonZeroUp, List.countP_cons, h] at ih ⊢
      omega
    · simp [zeroUp, nonZeroUp, List.countP_cons, h] at ih ⊢
      omega

/-- Every tunnel of a list either downloaded no byte or downloaded at least one. -/
theorem length_eq_zeroDown_add_nonZeroDown (l : List (Int × Int)) :
    l.length = zeroDown l + nonZeroDown l := by
  induction l with
  | nil => rfl
  | cons p l ih =>
    by_cases h : p.2 = 0
    · simp [zeroDown, nonZeroDown, List.countP_cons, h] at ih ⊢
      omega
    · simp [zeroDown, nonZeroDown, List.countP_cons, h] at ih ⊢
      omega

/-- C14: the two averages of the record of `printStats` are the completed bytes of the
direction divided by `max(completedSessions - zeroByteTunnels, 1)` with the zero-byte counter
of the direction.  After the tunnels of a list have each completed both directions since the
last reset, `completedSessions - zeroByteTunnelsUp` is the number of tunnels that uploaded at
least one byte and `completedSessions - zeroByteTunnelsDown` the number that downloaded at
least one, so each average is the byte sum divided by that number, or by 1 if it is 0.  For
the pairs (0,50), (100,0), (250,300) both averages are 175. -/
theorem average_divisor (l : List (Int × Int)) (s : Stats) (now : time.Time) :
    (s.record now).avgNonZeroUp
      = (s.completeBytesUp : ℚ)
          / max (((s.completedSessions - s.zeroByteTunnelsUp : Int)) : ℚ) 1 ∧
    (s.record now).avgNonZeroDown
      = (s.completeBytesDown : ℚ)
          / max (((s.completedSessions - s.zeroByteTunnelsDown : Int)) : ℚ) 1 ∧
    (runTunnels l s.reset).completedSessions - (runTunnels l s.reset).zeroByteTunnelsUp
      = nonZeroUp l ∧
    (runTunnels l s.reset).completedSessions - (runTunnels l s.reset).zeroByteTunnelsDown
      = nonZeroDown l ∧
    ((runTunnels l s.reset).record now).avgNonZeroUp
      = (sumUp l : ℚ) / max (nonZeroUp l : ℚ) 1 ∧
    ((runTunnels l s.reset).record now).avgNonZeroDown
      = (sumDown l : ℚ) / max (nonZeroDown l : ℚ) 1 ∧
    ((runTunnels [(0, 50), (100, 0), (250, 300)] s.reset).record now).avgNonZeroUp = 175 ∧
    ((runTunnels [(0, 50), (100, 0), (250, 300)] s.reset).record now).avgNonZeroDown = 175 := by
  have hup : ∀ l : List (Int × Int),
      (runTunnels l s.reset).completedSessions - (runTunnels l s.reset).zeroByteTunnelsUp
        = nonZeroUp l := by
    intro l
    have h := length_eq_zeroUp_add_nonZeroUp l
    rw [runTunnels_stats]
    simp [Stats.reset]
    omega
  have hdown : ∀ l : List (Int × Int),
      (runTunnels l s.reset).completedSessions - (runTunnels l s.reset).zeroByteTunnelsDown
        = nonZeroDown l := by
    intro l
    have h := length_eq_zeroDown_add_nonZeroDown l
    rw [runTunnels_stats]
    simp [Stats.reset]
    omega
  have hbu : ∀ l : List (Int × Int), (runTunnels l s.reset).completeBytesUp = sumUp l := by
    intro l
    rw [runTunnels_stats]
    simp [Stats.reset]
  have hbd : ∀ l : List (Int × Int), (runTunnels l s.reset).completeBytesDown = sumDown l := by
    intro l
    rw [runTunnels_stats]
    simp [Stats.reset]
  have avgUp : ∀ l : List (Int × Int), ((runTunnels l s.reset).record now).avgNonZeroUp
      = (sumUp l : ℚ) / max (nonZeroUp l : ℚ) 1 := by
    intro l
    simp only [Stats.record]
    rw [hup l, hbu l]
    simp
  have avgDown : ∀ l : List (Int × Int), ((runTunnels l s.reset).record now).avgNonZeroDown
      = (sumDown l : ℚ) / max (nonZeroDown l : ℚ) 1 := by
    intro l
    simp only [Stats.record]
    rw [hdown l, hbd l]
    simp
  refine ⟨rfl, rfl, hup l, hdown l, avgUp l, avgDown l, ?_, ?_⟩
  · rw [avgUp]
    norm_num [sumUp, nonZeroUp, List.countP_cons]
  · rw [avgDown]
    norm_num [sumDown, nonZeroDown, List.countP_cons]

/-- The record of `printStats`: one record is appended to the logger.  Its arguments are ten,
printed with the verbs of `fmtStr`, in this order: `sessionsProxying`, `newBytesUp`, the
upload rate, `newBytesDown`, the download rate, `completedSessions`, `zeroByteTunnelsUp`,
`zeroByteTunnelsDown`, the upload average and the download average.  The counters are the
values of the `Stats` at the call, and each rate is the bytes of the epoch divided by
`max(ms, 1)` and multiplied by 1000, with `ms` the milliseconds from `s.Time` to the call. -/
theorem printStats_record (s : Stats) (now : time.Time) (logger : Logger) :
    s.printStats now logger = logger ++ [s.record now] ∧
    (s.record now).args =
      [Arg.int s.sessionsProxying,
       Arg.int s.newBytesUp,
       Arg.float ((s.newBytesUp : ℚ)
         / max ((time.Milliseconds (now.Sub s.Time) : Int) : ℚ) 1 * 1000),
       Arg.int s.newBytesDown,
       Arg.float ((s.newBytesDown : ℚ)
         / max ((time.Milliseconds (now.Sub s.Time) : Int) : ℚ) 1 * 1000),
       Arg.int s.completedSessions,
       Arg.int s.zeroByteTunnelsUp,
       Arg.int s.zeroByteTunnelsDown,
       Arg.float ((s.completeBytesUp : ℚ)
         / max (((s.completedSessions - s.zeroByteTunnelsUp : Int)) : ℚ) 1),
       Arg.float ((s.completeBytesDown : ℚ)
         / max (((s.completedSessions - s.zeroByteTunnelsDown : Int)) : ℚ) 1)] ∧
    (s.record now).args.length = 10 ∧
    (s.record now).args.map Arg.verb = verbs fmtStr.toList := by
  refine ⟨rfl, rfl, rfl, ?_⟩
  have hv : verbs fmtStr.toList = ['d', 'd', 'f', 'd', 'f', 'd', 'd', 'd', 'f', 'f'] := by
    decide
  rw [hv]
  rfl

/-- C15 (evaluation at the failing input): the singleton as `initStats` made it,
`PrintAndReset` at 2024-01-01T00:00:00Z, then one tunnel reports 1000 uploaded bytes and
`printStats` runs one second after the reset.  The epoch has lasted 1000 ms, but `s.Time` is
still the zero `time.Time`, `time.Since(s.Time)` is saturated at the largest `Duration`, and
the record divides by 9223372036854 ms: the ten arguments come in the stated order with the
counters of the `Stats`, and the upload rate is `1000 / 9223372036854 * 1000`, not the
`1000 / max(1000, 1) * 1000 = 1000` bytes per second of the epoch. -/
theorem printStats_rate_one_second_after_reset :
    ((tunnelStats.zero.addBytes 1000 true
        (Stats.zero.PrintAndReset (time.Unix 1704067200 0) []).1).2).Time = time.Time.zero ∧
    time.Milliseconds ((time.Unix 1704067201 0).Sub (time.Unix 1704067200 0)) = 1000 ∧
    time.Milliseconds ((time.Unix 1704067201 0).Sub time.Time.zero) = 9223372036854 ∧
    (((tunnelStats.zero.addBytes 1000 true
        (Stats.zero.PrintAndReset (time.Unix 1704067200 0) []).1).2).record
          (time.Unix 1704067201 0)).args
      = [Arg.int 0, Arg.int 1000, Arg.float ((1000 : ℚ) / 9223372036854 * 1000), Arg.int 0,
         Arg.float 0, Arg.int 0, Arg.int 0, Arg.int 0, Arg.float 0, Arg.float 0] ∧
    (((tunnelStats.zero.addBytes 1000 true
        (Stats.zero.PrintAndReset (time.Unix 1704067200 0) []).1).2).record
          (time.Unix 1704067201 0)).rateUp
      ≠ (1000 : ℚ) / max ((time.Milliseconds
            ((time.Unix 1704067201 0).Sub (time.Unix 1704067200 0)) : Int) : ℚ) 1 * 1000 := by
  have hstate : (tunnelStats.zero.addBytes 1000 true
      (Stats.zero.PrintAndReset (time.Unix 1704067200 0) []).1).2
        = Stats.mk time.Time.zero 0 1000 0 0 0 0 0 0 := by
    decide
  have hepoch : time.Milliseconds ((time.Unix 1704067201 0).Sub (time.Unix 1704067200 0))
      = 1000 := by
    decide
  have hsince : time.Milliseconds ((time.Unix 1704067201 0).Sub time.Time.zero)
      = 9223372036854 := by
    decide
  have hdur : Stats.epochDur (Stats.mk time.Time.zero 0 1000 0 0 0 0 0 0)
      (time.Unix 1704067201 0) = 9223372036854 := by
    simp only [Stats.epochDur, hsince]
    norm_num
  rw [hstate, hepoch]
  refine ⟨rfl, rfl, hsince, ?_, ?_⟩
  · simp only [StatsRecord.args, Stats.record, hdur]
    norm_num
  · simp only [Stats.record, hdur]
    norm_num

/-! ## The merged lifecycle -/

/-- A parent that has ended keeps the contract of `context.Context`. -/
theorem finish_lawful (c : Context) (e : String) : (c.finish e).lawful := by
  simp [Context.lawful, Context.finish]

/-- The state that `mergeContexts` leaves satisfies the invariant. -/
theorem watch_Inv (mainCtx ctx : Context) (hm : mainCtx.lawful) (hc : ctx.lawful) :
    (watch mainCtx ctx).Inv := by
  refine ⟨hm, hc, ?_, ?_, ?_, ?_, ?_⟩ <;> simp [watch, mergeContexts]

/-- No step writes the terminal error once it is set. -/
theorem step_err_stable (ev : Event) (w w' : Watched) (h : step ev w = some w')
    (hset : w.c.err ≠ none) : w'.c.err = w.c.err := by
  cases ev with
  | parentDone p e =>
    cases p <;> simp only [step] at h <;> split at h <;> simp at h <;> subst h <;> rfl
  | selectParent p =>
    simp only [step] at h
    split at h <;> simp at h
    subst h
    rfl
  | selectSelf =>
    simp only [step] at h
    split at h <;> simp at h
    subst h
    rfl
  | lockedSection =>
    simp only [step] at h
    split at h
    · split at h
      · simp at h
      · simp [hset] at h
        subst h
        rfl
    · simp at h
  | closeDone =>
    simp only [step] at h
    split at h <;> simp at h
    subst h
    rfl

/-- No sequence of steps writes the terminal error once it is set. -/
theorem exec_err_stable (evs : List Event) (w w' : Watched) (h : exec evs w = some w')
    (hset : w.c.err ≠ none) : w'.c.err = w.c.err := by
  induction evs generalizing w with
  | nil =>
    simp [exec] at h
    rw [h]
  | cons ev evs ih =>
    simp only [exec] at h
    cases hs : step ev w with
    | none => rw [hs] at h; simp at h
    | some w1 =>
      rw [hs] at h
      have h1 := step_err_stable ev w w1 hs hset
      have h2 := ih w1 h (by rw [h1]; exact hset)
      rw [h2, h1]

/-- Every step keeps the invariant. -/
theorem step_Inv (ev : Event) (w w' : Watched) (h : step ev w = some w') (hi : w.Inv) :
    w'.Inv := by
  obtain ⟨hm, hc, hd, hsel, hlock, hclos, hret⟩ := hi
  cases ev with
  | parentDone p e =>
    cases p with
    | mainCtx =>
      simp only [step, Watched.parent] at h
      split at h
      · simp at h
      · rename_i hnd
        simp at h
        subst h
        have hq : ∀ q, w.doneCtx = some q → q = Parent.ctx := by
          intro q hq
          cases q with
          | mainCtx => exact absurd (hd _ hq) hnd
          | ctx => rfl
        refine ⟨finish_lawful _ _, hc, ?_, hsel, hlock, ?_, ?_⟩
        · intro q hq1
          cases q with
          | mainCtx => rfl
          | ctx => exact hd _ hq1
        · intro hp
          obtain ⟨h1, h2, q, h3, h4⟩ := hclos hp
          have := hq q h3
          subst this
          exact ⟨h1, h2, Parent.ctx, h3, h4⟩
        · intro hp
          obtain ⟨h1, h2, q, h3, h4⟩ := hret hp
          have := hq q h3
          subst this
          exact ⟨h1, h2, Parent.ctx, h3, h4⟩
    | ctx =>
      simp only [step, Watched.parent] at h
      split at h
      · simp at h
      · rename_i hnd
        simp at h
        subst h
        have hq : ∀ q, w.doneCtx = some q → q = Parent.mainCtx := by
          intro q hq
          cases q with
          | mainCtx => rfl
          | ctx => exact absurd (hd _ hq) hnd
        refine ⟨hm, finish_lawful _ _, ?_, hsel, hlock, ?_, ?_⟩
        · intro q hq1
          cases q with
          | mainCtx => exact hd _ hq1
          | ctx => rfl
        · intro hp
          obtain ⟨h1, h2, q, h3, h4⟩ := hclos hp
          have := hq q h3
          subst this
          exact ⟨h1, h2, Parent.mainCtx, h3, h4⟩
        · intro hp
          obtain ⟨h1, h2, q, h3, h4⟩ := hret hp
          have := hq q h3
          subst this
          exact ⟨h1, h2, Parent.mainCtx, h3, h4⟩
  | selectParent p =>
    simp only [step] at h
    split at h
    · rename_i hen
      simp at h
      subst h
      obtain ⟨h1, h2, h3⟩ := hsel hen.1
      refine ⟨hm, hc, ?_, ?_, ?_, ?_, ?_⟩
      · intro q hq
        simp at hq
        subst hq
        exact hen.2
      · intro hp
        simp at hp
      · intro _
        exact ⟨h1, h2, h3, by simp⟩
      · intro hp
        simp at hp
      · intro hp
        simp at hp
    · simp at h
  | selectSelf =>
    simp only [step] at h
    split at h
    · rename_i hen
      obtain ⟨_, h2, _⟩ := hsel hen.1
      rw [h2] at hen
      simp at hen
    · simp at h
  | lockedSection =>
    simp only [step] at h
    split at h
    · rename_i hen
      obtain ⟨h1, h2, h3, _⟩ := hlock hen
      split at h
      · simp at h
      · rename_i p hp
        simp [h1] at h
        subst h
        refine ⟨hm, hc, hd, ?_, ?_, ?_, ?_⟩
        · intro hp1
          simp at hp1
        · intro hp1
          simp at hp1
        · intro _
          exact ⟨h2, h3, p, hp, rfl⟩
        · intro hp1
          simp at hp1
    · simp at h
  | closeDone =>
    simp only [step] at h
    split at h
    · rename_i hen
      obtain ⟨_, h3, p, hp, he⟩ := hclos hen
      simp at h
      subst h
      refine ⟨hm, hc, hd, ?_, ?_, ?_, ?_⟩
      · intro hp1
        simp at hp1
      · intro hp1
        simp at hp1
      · intro hp1
        simp at hp1
      · intro _
        exact ⟨rfl, by simp [h3], p, hp, he⟩
    · simp at h

/-- Every sequence of steps keeps the invariant. -/
theorem exec_Inv (evs : List Event) (w w' : Watched) (h : exec evs w = some w') (hi : w.Inv) :
    w'.Inv := by
  induction evs generalizing w with
  | nil =>
    simp [exec] at h
    rw [← h]
    exact hi
  | cons ev evs ih =>
    simp only [exec] at h
    cases hs : step ev w with
    | none => rw [hs] at h; simp at h
    | some w1 =>
      rw [hs] at h
      exact ih w1 h (step_Inv ev w w1 hs hi)

/-- Under the invariant, a parent that has ended reports an error. -/
theorem Inv_parent_err (w : Watched) (hi : w.Inv) (p : Parent)
    (hp : (w.parent p).isDone = true) : (w.parent p).err ≠ none := by
  obtain ⟨hm, hc, _⟩ := hi
  cases p with
  | mainCtx => exact hm.mp hp
  | ctx => exact hc.mp hp

/-- Under the invariant, the watcher is past its stores exactly when the error is set, and the
error is then the one of the parent in `doneCtx`. -/
theorem Inv_cases (w : Watched) (hi : w.Inv) :
    (w.c.err = none ∧ w.c.done = false ∧ w.closes = 0 ∧
      (w.pc = RunPC.selecting ∨ w.pc = RunPC.locking)) ∨
    ((w.pc = RunPC.closing ∨ w.pc = RunPC.returned) ∧
      (w.c.done = true ↔ w.closes = 1) ∧ w.closes ≤ 1 ∧
      (w.c.done = true ↔ w.pc = RunPC.returned) ∧
      ∃ p, w.doneCtx = some p ∧ w.c.err = (w.parent p).err ∧ (w.parent p).isDone = true ∧
        w.c.err ≠ none) := by
  have hperr := Inv_parent_err w hi
  obtain ⟨hm, hc, hd, hsel, hlock, hclos, hret⟩ := hi
  cases hpc : w.pc with
  | selecting =>
    obtain ⟨h1, h2, h3⟩ := hsel hpc
    exact Or.inl ⟨h1, h2, h3, Or.inl rfl⟩
  | locking =>
    obtain ⟨h1, h2, h3, _⟩ := hlock hpc
    exact Or.inl ⟨h1, h2, h3, Or.inr rfl⟩
  | closing =>
    obtain ⟨h1, h2, p, h3, h4⟩ := hclos hpc
    refine Or.inr ⟨Or.inl rfl, ?_, ?_, ?_, p, h3, h4, hd p h3, ?_⟩
    · simp [h1, h2]
    · omega
    · simp [h1]
    · rw [h4]
      exact hperr p (hd p h3)
  | returned =>
    obtain ⟨h1, h2, p, h3, h4⟩ := hret hpc
    refine Or.inr ⟨Or.inr rfl, ?_, ?_, ?_, p, h3, h4, hd p h3, ?_⟩
    · simp [h1, h2]
    · omega
    · simp [h1]
    · rw [h4]
      exact hperr p (hd p h3)

/-- C16: in every state that a merged lifecycle reaches by steps of its watcher and done
events of its parents, `close(c.done)` has been executed at most once, `done` is closed only
if the terminal error is set, and once the error is set every state reached later has the same
error, so `Err()` returns the same value from then on.  The parents keep the contract of
`context.Context`. -/
theorem merged_done_once_err_first (mainCtx ctx : Context) (hm : mainCtx.lawful)
    (hc : ctx.lawful) (evs : List Event) (w : Watched)
    (h : exec evs (watch mainCtx ctx) = some w) :
    w.closes ≤ 1 ∧
    (w.c.done = true ↔ w.closes = 1) ∧
    (w.c.done = true → w.c.Err ≠ none) ∧
    (∀ evs' w', exec evs' w = some w' → w.c.Err ≠ none → w'.c.Err = w.c.Err) := by
  have hi := exec_Inv evs _ w h (watch_Inv mainCtx ctx hm hc)
  refine ⟨?_, ?_, ?_, ?_⟩
  · rcases Inv_cases w hi with ⟨_, _, h3, _⟩ | ⟨_, _, h3, _⟩ <;> omega
  · rcases Inv_cases w hi with ⟨_, h2, h3, _⟩ | ⟨_, h2, _⟩
    · simp [h2, h3]
    · exact h2
  · intro hdone
    rcases Inv_cases w hi with ⟨_, h2, _⟩ | ⟨_, _, _, _, p, _, _, _, h5⟩
    · rw [h2] at hdone
      simp at hdone
    · exact h5
  · intro evs' w' h' hset
    exact exec_err_stable evs' w w' h' hset

/-- C16 witness: both parents are live and without deadline; the manager parent is cancelled,
the watcher receives from its `Done()`, stores the error and closes `done`, and then the
request parent ends too. -/
theorem merged_done_once_err_first_witness :
    WithCancel.lawful ∧
    exec [Event.parentDone Parent.mainCtx "context canceled",
          Event.selectParent Parent.mainCtx, Event.lockedSection, Event.closeDone]
        (watch WithCancel WithCancel)
      = some { c := { mainCtx := WithCancel.finish "context canceled", ctx := WithCancel,
                      done := true, err := some "context canceled" },
               pc := RunPC.returned, doneCtx := some Parent.mainCtx, closes := 1 } ∧
    exec [Event.parentDone Parent.ctx "context deadline exceeded"]
        { c := { mainCtx := WithCancel.finish "context canceled", ctx := WithCancel,
                 done := true, err := some "context canceled" },
          pc := RunPC.returned, doneCtx := some Parent.mainCtx, closes := 1 }
      = some { c := { mainCtx := WithCancel.finish "context canceled",
                      ctx := WithCancel.finish "context deadline exceeded",
                      done := true, err := some "context canceled" },
               pc := RunPC.returned, doneCtx := some Parent.mainCtx, closes := 1 } ∧
    mContext.Err { mainCtx := WithCancel.finish "context canceled",
                   ctx := WithCancel.finish "context deadline exceeded",
                   done := true, err := some "context canceled" }
      = mContext.Err { mainCtx := WithCancel.finish "context canceled", ctx := WithCancel,
                       done := true, err := some "context canceled" } :=
  ⟨by decide, by decide, by decide,
   (merged_done_once_err_first WithCancel WithCancel (by decide) (by decide)
      [Event.parentDone Parent.mainCtx "context canceled",
       Event.selectParent Parent.mainCtx, Event.lockedSection, Event.closeDone]
      { c := { mainCtx := WithCancel.finish "context canceled", ctx := WithCancel,
               done := true, err := some "context canceled" },
        pc := RunPC.returned, doneCtx := some Parent.mainCtx, closes := 1 }
      (by decide)).2.2.2
      [Event.parentDone Parent.ctx "context deadline exceeded"]
      { c := { mainCtx := WithCancel.finish "context canceled",
               ctx := WithCancel.finish "context deadline exceeded",
               done := true, err := some "context canceled" },
        pc := RunPC.returned, doneCtx := some Parent.mainCtx, closes := 1 }
      (by decide) (by decide)⟩

/-- C17 (counterexample): the manager parent is cancelled and the watcher's `select` has
received from its `Done()`, so `doneCtx` is the manager parent; the watcher has not yet run
its locked section and `Err()` still returns `nil`, not the manager parent's error. -/
theorem Err_nil_after_select :
    (exec [Event.parentDone Parent.mainCtx "context canceled",
           Event.selectParent Parent.mainCtx] (watch WithCancel WithCancel)).map
        (fun w => (w.doneCtx, w.c.Err, (w.parent Parent.mainCtx).err))
      = some (some Parent.mainCtx, none, some "context canceled") := by
  decide

/-- C17 (amended): in every state that a merged lifecycle reaches, `Err()` is `nil` while
neither parent has ended and while the watcher is at its `select` or before its locked
section; once the watcher has run its locked section for the parent whose `Done()` its
`select` received from, which it does before it closes `done`, `Err()` is the non-nil
`Err()` of that parent; and when `done` is closed and only one parent has ended, `Err()` is
that parent's error.  The parents keep the contract of `context.Context`. -/
theorem Err_of_taken_parent (mainCtx ctx : Context) (hm : mainCtx.lawful) (hc : ctx.lawful)
    (evs : List Event) (w : Watched) (h : exec evs (watch mainCtx ctx) = some w) :
    (w.c.mainCtx.isDone = false → w.c.ctx.isDone = false → w.c.Err = none) ∧
    (w.pc = RunPC.selecting ∨ w.pc = RunPC.locking → w.c.Err = none) ∧
    (∀ p, w.doneCtx = some p → w.pc = RunPC.closing ∨ w.pc = RunPC.returned →
      w.c.Err = (w.parent p).err ∧ w.c.Err ≠ none) ∧
    (w.c.done = true → ∃ p, w.doneCtx = some p ∧ w.c.Err = (w.parent p).err) ∧
    (w.c.done = true → w.c.mainCtx.isDone = true → w.c.ctx.isDone = false →
      w.c.Err = w.c.mainCtx.err) ∧
    (w.c.done = true → w.c.ctx.isDone = true → w.c.mainCtx.isDone = false →
      w.c.Err = w.c.ctx.err) := by
  have hi := exec_Inv evs _ w h (watch_Inv mainCtx ctx hm hc)
  rcases Inv_cases w hi with ⟨h1, h2, _, h4⟩ | ⟨h1, _, _, _, p, h5, h6, h7, h8⟩
  · refine ⟨fun _ _ => h1, fun _ => h1, ?_, ?_, ?_, ?_⟩
    · intro q _ hpc
      rcases h4 with h4 | h4 <;> rcases hpc with hpc | hpc <;> rw [h4] at hpc <;> simp at hpc
    · intro hd
      rw [h2] at hd
      simp at hd
    · intro hd
      rw [h2] at hd
      simp at hd
    · intro hd
      rw [h2] at hd
      simp at hd
  · refine ⟨?_, ?_, ?_, ?_, ?_, ?_⟩
    · intro n1 n2
      cases p with
      | mainCtx =>
        have h7m : w.c.mainCtx.isDone = true := h7
        rw [n1] at h7m
        simp at h7m
      | ctx =>
        have h7c : w.c.ctx.isDone = true := h7
        rw [n2] at h7c
        simp at h7c
    · intro hpc
      rcases h1 with h1 | h1 <;> rcases hpc with hpc | hpc <;> rw [h1] at hpc <;> simp at hpc
    · intro q hq _
      rw [h5] at hq
      simp at hq
      subst hq
      exact ⟨h6, h8⟩
    · intro _
      exact ⟨p, h5, h6⟩
    · intro _ _ n2
      cases p with
      | mainCtx => exact h6
      | ctx =>
        have h7c : w.c.ctx.isDone = true := h7
        rw [n2] at h7c
        simp at h7c
    · intro _ _ n1
      cases p with
      | mainCtx =>
        have h7m : w.c.mainCtx.isDone = true := h7
        rw [n1] at h7m
        simp at h7m
      | ctx => exact h6

/-- C17 witness: the request parent is cancelled, the watcher receives from its `Done()`,
stores the error and closes `done`; `Err()` is then the request parent's error. -/
theorem Err_of_taken_parent_witness :
    WithCancel.lawful ∧
    exec [Event.parentDone Parent.ctx "context canceled", Event.selectParent Parent.ctx,
          Event.lockedSection, Event.closeDone] (watch WithCancel WithCancel)
      = some { c := { mainCtx := WithCancel, ctx := WithCancel.finish "context canceled",
                      done := true, err := some "context canceled" },
               pc := RunPC.returned, doneCtx := some Parent.ctx, closes := 1 } ∧
    mContext.Err { mainCtx := WithCancel, ctx := WithCancel.finish "context canceled",
                   done := true, err := some "context canceled" }
      = (WithCancel.finish "context canceled").err :=
  ⟨by decide, by decide,
   (Err_of_taken_parent WithCancel WithCancel (by decide) (by decide)
      [Event.parentDone Parent.ctx "context canceled", Event.selectParent Parent.ctx,
       Event.lockedSection, Event.closeDone]
      { c := { mainCtx := WithCancel, ctx := WithCancel.finish "context canceled",
               done := true, err := some "context canceled" },
        pc := RunPC.returned, doneCtx := some Parent.ctx, closes := 1 }
      (by decide)).2.2.2.2.2 rfl rfl rfl⟩

/-! ## Byte counters -/

/-- Within the `int64` range `atomic.AddInt64` is the sum. -/
theorem AddInt64_of_fit (v delta : Int) (h : isInt64 (v + delta)) :
    AddInt64 v delta = v + delta := by
  obtain ⟨h1, h2⟩ := h
  unfold MinInt64 at h1
  unfold MaxInt64 at h2
  exact wrap64_of_range _ h1 (by omega)

/-- As long as the sums it forms are `int64` values, `addBytes` with the wrap-around of
`atomic.AddInt64` is `addBytes` with integer sums. -/
theorem addBytesInt64_eq_addBytes (ts : tunnelStats) (s : Stats) (n : Int) (isUpload : Bool)
    (ht : isInt64 (if isUpload then ts.BytesUp + n else ts.BytesDown + n))
    (hs : isInt64 (if isUpload then s.newBytesUp + n else s.newBytesDown + n)) :
    ts.addBytesInt64 n isUpload s = ts.addBytes n isUpload s := by
  cases isUpload
  · simp only [Bool.false_eq_true, if_false] at ht hs
    simp [tunnelStats.addBytesInt64, tunnelStats.addBytes, Stats.addBytesInt64,
      Stats.addBytes, AddInt64_of_fit _ _ ht, AddInt64_of_fit _ _ hs]
  · simp only [if_true] at ht hs
    simp [tunnelStats.addBytesInt64, tunnelStats.addBytes, Stats.addBytesInt64,
      Stats.addBytes, AddInt64_of_fit _ _ ht, AddInt64_of_fit _ _ hs]

/-- C18 (counterexample): `addBytes(-5, true)` on a new `tunnelStats` takes `BytesUp` from 0
to -5 and `addBytes(-5, false)` takes `BytesDown` from 0 to -5; `addBytes(1, true)` on a
`tunnelStats` whose `BytesUp` is `math.MaxInt64` takes `BytesUp` to `math.MinInt64`. -/
theorem addBytes_decreases :
    (tunnelStats.zero.addBytesInt64 (-5) true Stats.zero).1.BytesUp = -5 ∧
    (tunnelStats.zero.addBytesInt64 (-5) true Stats.zero).1.BytesUp
      < tunnelStats.zero.BytesUp ∧
    (tunnelStats.zero.addBytesInt64 (-5) false Stats.zero).1.BytesDown = -5 ∧
    (tunnelStats.zero.addBytesInt64 (-5) false Stats.zero).1.BytesDown
      < tunnelStats.zero.BytesDown ∧
    (({ tunnelStats.zero with BytesUp := 9223372036854775807 } : tunnelStats).addBytesInt64
      1 true Stats.zero).1.BytesUp = -9223372036854775808 ∧
    (({ tunnelStats.zero with BytesUp := 9223372036854775807 } : tunnelStats).addBytesInt64
      1 true Stats.zero).1.BytesUp
      < ({ tunnelStats.zero with BytesUp := 9223372036854775807 } : tunnelStats).BytesUp := by
  decide

/-- C18 (amended): for every `tunnelStats` whose `BytesUp` and `BytesDown` are `int64` values,
`addBytes(n, direction)` with `n` at least 0 and with the counter of the direction plus `n`
at most `math.MaxInt64`, `completed` and `duration` each leave `BytesUp` and `BytesDown` at
least what they were.  The sums of `addBytes` are those of `atomic.AddInt64`. -/
theorem bytes_only_increase (ts : tunnelStats) (s : Stats) (n e : Int) (direction : Bool)
    (hup : isInt64 ts.BytesUp) (hdown : isInt64 ts.BytesDown) (hn : 0 ≤ n)
    (hfit : (if direction then ts.BytesUp else ts.BytesDown) + n ≤ MaxInt64) :
    ts.BytesUp ≤ (ts.addBytesInt64 n direction s).1.BytesUp ∧
    ts.BytesDown ≤ (ts.addBytesInt64 n direction s).1.BytesDown ∧
    ts.BytesUp ≤ (ts.completed direction s).1.BytesUp ∧
    ts.BytesDown ≤ (ts.completed direction s).1.BytesDown ∧
    ts.BytesUp ≤ (ts.duration e direction).BytesUp ∧
    ts.BytesDown ≤ (ts.duration e direction).BytesDown := by
  have hadd : ts.BytesUp ≤ (ts.addBytesInt64 n direction s).1.BytesUp ∧
      ts.BytesDown ≤ (ts.addBytesInt64 n direction s).1.BytesDown := by
    cases direction
    · simp only [Bool.false_eq_true, if_false] at hfit
      have hsum : AddInt64 ts.BytesDown n = ts.BytesDown + n :=
        AddInt64_of_fit _ _ ⟨by have := hdown.1; omega, hfit⟩
      simp [tunnelStats.addBytesInt64, hsum, hn]
    · simp only [if_true] at hfit
      have hsum : AddInt64 ts.BytesUp n = ts.BytesUp + n :=
        AddInt64_of_fit _ _ ⟨by have := hup.1; omega, hfit⟩
      simp [tunnelStats.addBytesInt64, hsum, hn]
  refine ⟨hadd.1, hadd.2, ?_, ?_, ?_, ?_⟩
  · cases direction <;> simp [tunnelStats.completed]
  · cases direction <;> simp [tunnelStats.completed]
  · unfold tunnelStats.duration
    split <;> simp
  · unfold tunnelStats.duration
    split <;> simp

/-- C18 witness: a tunnel with 10 uploaded and 20 downloaded bytes reports 100 more uploaded
bytes. -/
theorem bytes_only_increase_witness :
    isInt64 10 ∧ isInt64 20 ∧ (0 : Int) ≤ 100 ∧ (10 : Int) + 100 ≤ MaxInt64 ∧
    (10 : Int) ≤
      (({ tunnelStats.zero with BytesUp := 10, BytesDown := 20 } : tunnelStats).addBytesInt64
        100 true Stats.zero).1.BytesUp ∧
    (({ tunnelStats.zero with BytesUp := 10, BytesDown := 20 } : tunnelStats).addBytesInt64
        100 true Stats.zero).1.BytesUp = 110 :=
  ⟨by decide, by decide, by decide, by decide,
   (bytes_only_increase { tunnelStats.zero with BytesUp := 10, BytesDown := 20 } Stats.zero
      100 0 true (by decide) (by decide) (by decide) (by decide)).1,
   by decide⟩

/-- Each call on a `Stats` keeps `0 ≤ zeroByteTunnelsUp ≤ completedSessions`. -/
theorem call_keeps_zeroUp_le (s : Stats) (c : StatsCall)
    (h : 0 ≤ s.zeroByteTunnelsUp ∧ s.zeroByteTunnelsUp ≤ s.completedSessions) :
    0 ≤ (s.call c).zeroByteTunnelsUp ∧
    (s.call c).zeroByteTunnelsUp ≤ (s.call c).completedSessions := by
  obtain ⟨h1, h2⟩ := h
  cases c with
  | addSession => exact ⟨h1, h2⟩
  | removeSession => exact ⟨h1, h2⟩
  | addBytes nb isUpload =>
    cases isUpload <;> exact ⟨h1, h2⟩
  | addCompleted nb isUpload =>
    cases isUpload
    · by_cases hz : nb = 0 <;> simp [Stats.call, Stats.addCompleted, hz] <;> omega
    · by_cases hz : nb = 0 <;> simp [Stats.call, Stats.addCompleted, hz] <;> omega
  | reset => simp [Stats.call, Stats.reset]

/-- Every sequence of calls keeps `0 ≤ zeroByteTunnelsUp ≤ completedSessions`. -/
theorem calls_keep_zeroUp_le (l : List StatsCall) (s : Stats)
    (h : 0 ≤ s.zeroByteTunnelsUp ∧ s.zeroByteTunnelsUp ≤ s.completedSessions) :
    0 ≤ (s.calls l).zeroByteTunnelsUp ∧
    (s.calls l).zeroByteTunnelsUp ≤ (s.calls l).completedSessions := by
  induction l generalizing s with
  | nil => exact h
  | cons c l ih =>
    have hstep : s.calls (c :: l) = (s.call c).calls l := rfl
    rw [hstep]
    exact ih (s.call c) (call_keeps_zeroUp_le s c h)

/-- C19: in every state that the zero `Stats` reaches by a sequence of `addSession`,
`removeSession`, `addBytes`, `addCompleted` and `reset` calls,
`0 ≤ zeroByteTunnelsUp ≤ completedSessions`, so `completedSessions - zeroByteTunnelsUp` is
not negative. -/
theorem zeroByteTunnelsUp_le_completedSessions (l : List StatsCall) :
    0 ≤ (Stats.zero.calls l).zeroByteTunnelsUp ∧
    (Stats.zero.calls l).zeroByteTunnelsUp ≤ (Stats.zero.calls l).completedSessions ∧
    0 ≤ (Stats.zero.calls l).completedSessions - (Stats.zero.calls l).zeroByteTunnelsUp := by
  have h := calls_keep_zeroUp_le l Stats.zero (by decide)
  exact ⟨h.1, h.2, by omega⟩

/-! ## Conservation of the epoch's bytes -/

/-- Replacing the element at a position of a list changes the sum of a field by the
difference between the new and the old element. -/
theorem sum_map_set (f : tunnelStats → Int) (l : List tunnelStats) (i : Nat)
    (t t' : tunnelStats) (h : l[i]? = some t) :
    ((l.set i t').map f).sum = (l.map f).sum - f t + f t' := by
  induction l generalizing i with
  | nil => simp at h
  | cons a l ih =>
    cases i with
    | zero =>
      simp at h
      subst h
      simp only [List.set_cons_zero, List.map_cons, List.sum_cons]
      omega
    | succ i =>
      simp at h
      simp only [List.set_cons_succ, List.map_cons, List.sum_cons]
      rw [ih i h]
      omega

/-- One `addBytes` call moves `newBytesUp` and the sum of `BytesUp` by the same amount, and
`newBytesDown` and the sum of `BytesDown` by the same amount. -/
theorem callAddBytes_conserves (st : List tunnelStats × Stats) (c : AddBytesCall) :
    (callAddBytes st c).2.newBytesUp - totalBytesUp (callAddBytes st c).1
      = st.2.newBytesUp - totalBytesUp st.1 ∧
    (callAddBytes st c).2.newBytesDown - totalBytesDown (callAddBytes st c).1
      = st.2.newBytesDown - totalBytesDown st.1 := by
  unfold callAddBytes
  cases hget : st.1[c.tunnel]? with
  | none => simp
  | some ts =>
    simp only [totalBytesUp, totalBytesDown]
    rw [sum_map_set (fun t => t.BytesUp) st.1 c.tunnel ts _ hget,
      sum_map_set (fun t => t.BytesDown) st.1 c.tunnel ts _ hget]
    cases hdir : c.isUpload <;> simp [tunnelStats.addBytes, Stats.addBytes] <;> omega

/-- A sequence of `addBytes` calls keeps the differences between the counters of the epoch
and the sums over the tunnels. -/
theorem callsAddBytes_conserves (l : List AddBytesCall) (st : List tunnelStats × Stats) :
    (callsAddBytes l st).2.newBytesUp - totalBytesUp (callsAddBytes l st).1
      = st.2.newBytesUp - totalBytesUp st.1 ∧
    (callsAddBytes l st).2.newBytesDown - totalBytesDown (callsAddBytes l st).1
      = st.2.newBytesDown - totalBytesDown st.1 := by
  induction l generalizing st with
  | nil => exact ⟨rfl, rfl⟩
  | cons c l ih =>
    have hstep : callsAddBytes (c :: l) st = callsAddBytes l (callAddBytes st c) := rfl
    rw [hstep]
    have h1 := ih (callAddBytes st c)
    have h2 := callAddBytes_conserves st c
    exact ⟨h1.1.trans h2.1, h1.2.trans h2.2⟩

/-- Tunnels that have moved no byte sum to 0. -/
theorem totalBytes_zero (tunnels : List tunnelStats)
    (h : ∀ t ∈ tunnels, t.BytesUp = 0 ∧ t.BytesDown = 0) :
    totalBytesUp tunnels = 0 ∧ totalBytesDown tunnels = 0 := by
  induction tunnels with
  | nil => exact ⟨rfl, rfl⟩
  | cons a l ih =>
    have ha := h a (List.mem_cons_self a l)
    have hl := ih (fun t ht => h t (List.mem_cons_of_mem a ht))
    simp only [totalBytesUp, totalBytesDown, List.map_cons, List.sum_cons] at hl ⊢
    rw [ha.1, ha.2, hl.1, hl.2]
    exact ⟨rfl, rfl⟩

/-- C20: for tunnels that all start with `BytesUp = 0` and `BytesDown = 0` and share a `Stats`
that has just been reset, after every sequence of `addBytes` calls on them `newBytesUp` is
the sum of their `BytesUp` and `newBytesDown` is the sum of their `BytesDown`. -/
theorem newBytes_eq_sum_of_tunnels (tunnels : List tunnelStats) (s : Stats)
    (calls : List AddBytesCall) (h : ∀ t ∈ tunnels, t.BytesUp = 0 ∧ t.BytesDown = 0) :
    (callsAddBytes calls (tunnels, s.reset)).2.newBytesUp
      = totalBytesUp (callsAddBytes calls (tunnels, s.reset)).1 ∧
    (callsAddBytes calls (tunnels, s.reset)).2.newBytesDown
      = totalBytesDown (callsAddBytes calls (tunnels, s.reset)).1 := by
  obtain ⟨hu, hd⟩ := callsAddBytes_conserves calls (tunnels, s.reset)
  obtain ⟨zu, zd⟩ := totalBytes_zero tunnels h
  change _ = (0 : Int) - totalBytesUp tunnels at hu
  change _ = (0 : Int) - totalBytesDown tunnels at hd
  rw [zu] at hu
  rw [zd] at hd
  constructor <;> omega

/-- C20 witness: two new tunnels; the first uploads 5 and then 9 bytes, the second downloads
7, and both counters of the epoch are the sums over the two tunnels. -/
theorem newBytes_eq_sum_of_tunnels_witness :
    (∀ t ∈ [tunnelStats.zero, tunnelStats.zero], t.BytesUp = 0 ∧ t.BytesDown = 0) ∧
    (callsAddBytes [⟨0, 5, true⟩, ⟨1, 7, false⟩, ⟨0, 9, true⟩]
      ([tunnelStats.zero, tunnelStats.zero], Stats.zero.reset)).2.newBytesUp = 14 ∧
    (callsAddBytes [⟨0, 5, true⟩, ⟨1, 7, false⟩, ⟨0, 9, true⟩]
      ([tunnelStats.zero, tunnelStats.zero], Stats.zero.reset)).2.newBytesUp
      = totalBytesUp (callsAddBytes [⟨0, 5, true⟩, ⟨1, 7, false⟩, ⟨0, 9, true⟩]
          ([tunnelStats.zero, tunnelStats.zero], Stats.zero.reset)).1 :=
  ⟨by decide, by decide,
   (newBytes_eq_sum_of_tunnels [tunnelStats.zero, tunnelStats.zero] Stats.zero
      [⟨0, 5, true⟩, ⟨1, 7, false⟩, ⟨0, 9, true⟩] (by decide)).1⟩

end Proxy
